import Mathlib

/-!
Verification development for the laniakea Archive Import and Repository
Consistency Engine (files `src/laniakea/archive/pkgimport.py` and
`src/laniakea/reporeader.py`).

The Python code is shallowly embedded: the database session and the
filesystem become an explicit `ImportState` value, exceptions become the
error side of `Except` (carrying the state at the point where the
exception is raised), and the external collaborators that are not part of
the repository sources (the debversion column comparator, the control-file
renderer, `laniakea.archive.utils`, `laniakea.archive.changes` and the
database entity declarations) are modelled from the specification, each
marked with a doc comment starting with `Modelled from the spec:`.
-/

namespace Laniakea

/-- Association-list lookup keyed by strings; models the one-row-or-none
database queries (`one_or_none`) used throughout `pkgimport.py`. -/
def alookup {β : Type} (k : String) : List (String × β) → Option β
  | [] => none
  | (a, b) :: t => if a = k then some b else alookup k t

/-- Write a file at path `k` with content `v`, replacing any existing file at
that path (models `shutil.copy` after an optional `os.unlink`). -/
def fsPut {β : Type} (m : List (String × β)) (k : String) (v : β) : List (String × β) :=
  match m with
  | [] => [(k, v)]
  | (a, b) :: t => if a = k then (k, v) :: t else (a, b) :: fsPut t k v

/-- Models `os.path.basename` for the slash-separated relative paths used by
the importer: everything after the last slash. -/
def basename (s : String) : String :=
  String.mk ((s.data.reverse.takeWhile (fun c => !(c = '/'))).reverse)

/-- Whether `s` ends with `suffix` (executable counterpart of
`str.endswith` / `os.path.splitext` extension tests). -/
def strEndsWith (s suffix : String) : Bool :=
  suffix.data.reverse.isPrefixOf s.data.reverse

/-- Insert a suite name into the set of suites with pending changes
(models setting `rss.changes_pending = True` for one repo-suite). -/
def insertStr (s : String) (l : List String) : List String :=
  if s ∈ l then l else s :: l

/- ### Debian version comparison

The columns `ArchiveVersionMemory.highest_version` etc. use the PostgreSQL
`debversion` type; the SQL comparisons `>` and `>=` in `pkgimport.py`
therefore compare Debian version strings.  The entity declarations are not
part of the provided sources, so the comparison is modelled from the spec
("Debian-style archive", version ordering).  The implementation below is the
standard dpkg algorithm (epoch, upstream, revision; `~` sorts before
everything, digit runs compare numerically). -/

/-- Modelled from the spec: character weight used by the dpkg version
comparison (letters before non-letters, `~` before everything including the
end of the string, which has weight 0). -/
def ndOrd : Option Char → Int
  | none => 0
  | some c =>
    if c = '~' then -1
    else if c.isAlpha then (c.toNat : Int)
    else (c.toNat : Int) + 256

/-- Modelled from the spec: compare two non-digit fragments with the dpkg
character weights.  Fuelled recursion (the fuel is always sufficient). -/
def cmpNDFuel : Nat → List Char → List Char → Ordering
  | 0, _, _ => Ordering.eq
  | Nat.succ k, a, b =>
    match a, b with
    | [], [] => Ordering.eq
    | _, _ =>
      let o := compare (ndOrd a.head?) (ndOrd b.head?)
      if o = Ordering.eq then cmpNDFuel k a.tail b.tail else o

/-- Lexicographic comparison of two equal-length digit runs. -/
def cmpDigitsLex : List Char → List Char → Ordering
  | [], [] => Ordering.eq
  | [], _ :: _ => Ordering.lt
  | _ :: _, [] => Ordering.gt
  | a :: as, b :: bs => (compare a.toNat b.toNat).then (cmpDigitsLex as bs)

/-- Modelled from the spec: compare two digit runs numerically (leading
zeros stripped, then the longer run wins, then lexicographic). -/
def cmpNum (a b : List Char) : Ordering :=
  let a' := a.dropWhile (fun c => c = '0')
  let b' := b.dropWhile (fun c => c = '0')
  if a'.length < b'.length then Ordering.lt
  else if b'.length < a'.length then Ordering.gt
  else cmpDigitsLex a' b'

/-- Modelled from the spec: the dpkg `verrevcmp` loop, alternating non-digit
and digit fragments.  Fuelled recursion. -/
def verrevcmpFuel : Nat → List Char → List Char → Ordering
  | 0, _, _ => Ordering.eq
  | Nat.succ k, a, b =>
    if a = [] ∧ b = [] then Ordering.eq
    else
      let nda := a.takeWhile (fun c => !c.isDigit)
      let ra := a.dropWhile (fun c => !c.isDigit)
      let ndb := b.takeWhile (fun c => !c.isDigit)
      let rb := b.dropWhile (fun c => !c.isDigit)
      let o := cmpNDFuel (nda.length + ndb.length + 1) nda ndb
      if o ≠ Ordering.eq then o
      else
        let da := ra.takeWhile Char.isDigit
        let ra' := ra.dropWhile Char.isDigit
        let db := rb.takeWhile Char.isDigit
        let rb' := rb.dropWhile Char.isDigit
        let o2 := cmpNum da db
        if o2 ≠ Ordering.eq then o2 else verrevcmpFuel k ra' rb'

/-- Modelled from the spec: dpkg fragment comparison with sufficient fuel. -/
def verrevcmp (a b : List Char) : Ordering :=
  verrevcmpFuel (a.length + b.length + 1) a b

/-- First index of a character, or `none` (also models Python
`str.index` raising `ValueError`). -/
def pyFind (c : Char) : List Char → Option Nat
  | [] => none
  | a :: t => if a = c then some 0 else (pyFind c t).map (fun n => n + 1)

/-- Modelled from the spec: `split_epoch` from `laniakea.archive.utils`
(not among the provided sources): split a Debian version into its optional
epoch (the part before the first colon) and the remainder. -/
def split_epoch (v : String) : Option String × String :=
  match pyFind ':' v.data with
  | none => (none, v)
  | some i => (some (String.mk (v.data.take i)), String.mk (v.data.drop (i + 1)))

/-- Modelled from the spec: split upstream version and Debian revision at
the last hyphen; a version without a hyphen has revision "0". -/
def splitRevision (s : String) : String × String :=
  match pyFind '-' s.data.reverse with
  | none => (s, "0")
  | some i =>
    (String.mk ((s.data.reverse.drop (i + 1)).reverse),
     String.mk ((s.data.reverse.take i).reverse))

/-- Numeric value of a digit run (epochs are numeric by policy). -/
def digitsToNat (l : List Char) : Nat :=
  l.foldl (fun acc c => acc * 10 + (c.toNat - 48)) 0

/-- Modelled from the spec: full Debian version comparison as performed by
the database `debversion` column type. -/
def debVersionCompare (a b : String) : Ordering :=
  let (ea, ra) := split_epoch a
  let (eb, rb) := split_epoch b
  let na := digitsToNat (ea.getD "0").data
  let nb := digitsToNat (eb.getD "0").data
  (compare na nb).then
    (let (ua, va) := splitRevision ra
     let (ub, vb) := splitRevision rb
     (verrevcmp ua.data ub.data).then (verrevcmp va.data vb.data))

/- ### Checksum verification (`PackageImporter._verify_hashes`) -/

/-- One computed hash entry, as produced by `apt_pkg.Hashes(f).hashes`:
a hash type name and the value computed from the file. -/
structure HashEntry where
  htype : String
  hvalue : String
deriving DecidableEq

/-- The byte content of a file, represented by the digests the hashing
capability (`apt_pkg.Hashes`) computes from it.  The spec treats
"compute {MD5,SHA1,SHA256,SHA512} of a byte stream" as an external
capability, so a file's content is identified with its digest tuple. -/
structure FileContent where
  md5 : String
  sha1 : String
  sha256 : String
  sha512 : String
  size : String
deriving DecidableEq

/-- The list `apt_pkg.Hashes(f).hashes` computed for a file: the five entry
types handled by `_verify_hashes`. -/
def aptHashes (c : FileContent) : List HashEntry :=
  [⟨"MD5Sum", c.md5⟩, ⟨"SHA1", c.sha1⟩, ⟨"SHA256", c.sha256⟩,
   ⟨"SHA512", c.sha512⟩, ⟨"Checksum-FileSize", c.size⟩]

/-- The `ArchiveFile` database entity as used by the importer: a pool
relative path plus declared size and digests, any of which may be unset
(`None` in Python, compared with `==` against the computed value). -/
structure AFile where
  fname : String
  size : Option String
  md5sum : Option String
  sha1sum : Option String
  sha256sum : Option String
  sha512sum : Option String
deriving DecidableEq

/-- The errors raised by the importer (`ArchiveImportError` and the
uncaught library exceptions), identified by their raise site; `msg` below
renders the exact diagnostic strings where a claim depends on them. -/
inductive ImpErr where
  | unknownHashType (t : String)
  | checksumMismatch (htype fname expectedShown : String)
  | insufficientHashes
  | versionRegression (pkg : String)
  | unknownComponent (c : String)
  | unknownArch (a : String)
  | malformedChecksums (fname : String)
  | stagedFileMissing (fname : String)
  | destinationExists (fname : String)
  | orphanedBinary (pkg : String)
  | missingOverride (pkg : String)
  | valueError
deriving DecidableEq

/-- The diagnostic string attached to each error, following the format
strings in `pkgimport.py`.  In the mismatch message the value printed after
"expected" is `hash.hashvalue`, i.e. the digest computed from the file. -/
def ImpErr.msg : ImpErr → String
  | .unknownHashType t =>
      "Unknown hash type \"" ++ t ++
      "\" - Laniakea likely needs to be adjusted to a new APT version."
  | .checksumMismatch htype fname shown =>
      htype ++ " checksum validation of \"" ++ fname ++ "\" failed (expected " ++
      shown ++ ")."
  | .insufficientHashes =>
      "An insufficient amount of hashes was validated for \"\x7b\x7d\" - this is a bug."
  | .versionRegression pkg =>
      "Unable to import package \"" ++ pkg ++
      "\": We have already seen higher version in this repository before."
  | .unknownComponent c => "No result found for component " ++ c
  | .unknownArch a => "No result found for architecture " ++ a
  | .malformedChecksums fname => "Malformed checksum index entry for " ++ fname
  | .stagedFileMissing fname => "No such file or directory: " ++ fname
  | .destinationExists fname =>
      "Destination source file `" ++ fname ++ "` already exists. Can not continue"
  | .orphanedBinary pkg =>
      "Unable to import binary package `" ++ pkg ++
      "`: Could not find corresponding source package."
  | .missingOverride pkg =>
      "Missing override for `" ++ pkg ++
      "`: Please process the source package through NEW first before uploading a binary."
  | .valueError => "substring not found"

/-- One comparison step of `_verify_hashes`: dispatch on the hash type name
and compare the declared digest with the computed one (`None == value` is
false in Python, hence the `Option` equality). -/
def hashMatches (f : AFile) (h : HashEntry) : Except ImpErr Bool :=
  if h.htype = "MD5Sum" then Except.ok (f.md5sum = some h.hvalue)
  else if h.htype = "SHA1" then Except.ok (f.sha1sum = some h.hvalue)
  else if h.htype = "SHA256" then Except.ok (f.sha256sum = some h.hvalue)
  else if h.htype = "SHA512" then Except.ok (f.sha512sum = some h.hvalue)
  else if h.htype = "Checksum-FileSize" then Except.ok (f.size = some h.hvalue)
  else Except.error (ImpErr.unknownHashType h.htype)

/-- The loop of `_verify_hashes`: check every computed hash entry against
the declared values, counting the checks performed; the first failing check
raises with the mismatch diagnostic. -/
def verifyLoop (f : AFile) : List HashEntry → Nat → Except ImpErr Nat
  | [], n => Except.ok n
  | h :: hs, n =>
    match hashMatches f h with
    | Except.error e => Except.error e
    | Except.ok true => verifyLoop f hs (n + 1)
    | Except.ok false =>
        Except.error (ImpErr.checksumMismatch h.htype f.fname h.hvalue)

/-- `_verify_hashes` with the computed hash list abstracted: run all checks,
then fail if fewer than 4 checks were performed. -/
def verifyHashesList (f : AFile) (hs : List HashEntry) : Except ImpErr Unit :=
  match verifyLoop f hs 0 with
  | Except.error e => Except.error e
  | Except.ok n => if n < 4 then Except.error ImpErr.insufficientHashes else Except.ok ()

/-- `PackageImporter._verify_hashes`: verify a declared file record against
the digests computed from the actual file content. -/
def verify_hashes (f : AFile) (c : FileContent) : Except ImpErr Unit :=
  verifyHashesList f (aptHashes c)

/- ### Python string primitives

Needed to embed the two parsers of the binary `Source` control field
(`reporeader.py` lines 517-526 and `pkgimport.py` lines 352-361)
byte-for-byte, including Python's negative slice indices. -/

/-- Python `s[0:j]` where `j` may be negative (a negative index counts from
the end of the string and clamps at 0). -/
def pySliceTo (s : List Char) (j : Int) : List Char :=
  if j < 0 then s.take ((s.length + j).toNat) else s.take j.toNat

/-- Python `s[a:b]` for non-negative `a`, `b`. -/
def pySlice (s : List Char) (a b : Nat) : List Char :=
  (s.take b).drop a

/-- Python `str.strip()` (restricted to the whitespace characters Lean's
`Char.isWhitespace` knows; the extra Python whitespace characters `\v` and
`\f` do not occur in control fields). -/
def pyStrip (s : List Char) : List Char :=
  ((s.dropWhile Char.isWhitespace).reverse.dropWhile Char.isWhitespace).reverse

/-- The `Source` control-field parser of `PackageImporter.import_binary`
(`pkgimport.py` lines 352-361).  `srcField` is the raw field (`none` when
absent; `pop('Source', '')` makes an absent field the empty string, and
`if not source_info_raw` treats both alike); `pkgname`/`version` are the
binary package's own name and version.  The result is the resolved
(source name, source version); `none` models the uncaught `ValueError`
from `source_info_raw.index(')')` when `(` occurs without `)`. -/
def binSourceFieldImport (srcField : Option (List Char)) (pkgname version : List Char) :
    Option (List Char × List Char) :=
  let s := srcField.getD []
  if s = [] then some (pkgname, version)
  else
    match pyFind '(' s with
    | none => some (s, version)
    | some i =>
      match pyFind ')' s with
      | none => none
      | some j =>
          some (pyStrip (pySliceTo s ((i : Int) - 1)), pyStrip (pySlice s (i + 1) j))

/-- The `Source` control-field parser of
`RepositoryReader._read_binary_packages_from_tf` (`reporeader.py` lines
517-526).  `e.get('Source')` yields `None` when the field is absent and
`if not source_id` treats `None` and the empty string alike. -/
def binSourceFieldReader (srcField : Option (List Char)) (pkgname version : List Char) :
    Option (List Char × List Char) :=
  let s := srcField.getD []
  if s = [] then some (pkgname, version)
  else
    match pyFind '(' s with
    | none => some (s, version)
    | some i =>
      match pyFind ')' s with
      | none => none
      | some j =>
          some (pyStrip (pySliceTo s ((i : Int) - 1)), pyStrip (pySlice s (i + 1) j))

/- ### Reading binary packages from a Packages index
(`RepositoryReader._read_binary_packages_from_tf`) -/

/-- One stanza of a `Packages` index, restricted to the fields that drive
the control flow of `_read_binary_packages_from_tf` (the remaining fields
are copied verbatim into the result records and are not inspected). -/
structure PkgStanza where
  pkg : String
  version : String
  arch : String
deriving DecidableEq

/-- The warning diagnostic logged for an architecture mismatch, following
the format string in `reporeader.py` (including its typo). -/
def archWarnMsg (repoName : String) (e : PkgStanza) (reqArch : String) : String :=
  "Found package \"" ++ repoName ++ "::" ++ e.pkg ++ "/" ++ e.version ++
  "\" with unexpeced architecture \"" ++ e.arch ++ "\" (expected \"" ++ reqArch ++ "\")"

/-- The invalid-stanza exception message of
`_read_binary_packages_from_tf`. -/
def invalidBlockMsg (tfFname : String) : String :=
  "Found invalid block (no Package and Version fields) in Packages file \"" ++
  tfFname ++ "\"."

/-- `RepositoryReader._read_binary_packages_from_tf`: walk the stanzas of a
`Packages` index for the requested architecture, returning the kept stanzas
together with the warning diagnostics logged along the way.  Mirrors the
loop in `reporeader.py` lines 480-505: arch:all entries are skipped unless
the requested architecture is the pseudo-architecture `all`; when `all` is
requested, entries of other architectures are skipped; any other mismatch
is kept but logged. -/
def readBinaryPackages (repoName tfFname reqArch : String) :
    List PkgStanza → Except String (List PkgStanza × List String)
  | [] => Except.ok ([], [])
  | e :: rest =>
    if e.pkg = "" ∨ e.version = "" then Except.error (invalidBlockMsg tfFname)
    else if ¬(reqArch = "all") ∧ e.arch = "all" then
      readBinaryPackages repoName tfFname reqArch rest
    else if e.arch ≠ reqArch then
      if reqArch = "all" ∧ e.arch ≠ "all" then
        readBinaryPackages repoName tfFname reqArch rest
      else
        match readBinaryPackages repoName tfFname reqArch rest with
        | Except.error m => Except.error m
        | Except.ok (ps, ws) =>
            Except.ok (e :: ps, archWarnMsg repoName e reqArch :: ws)
    else
      match readBinaryPackages repoName tfFname reqArch rest with
      | Except.error m => Except.error m
      | Except.ok (ps, ws) => Except.ok (e :: ps, ws)

/- ### Data model (database entities; the entity declarations live in
`laniakea.db`, which is not among the provided sources — the record shapes
below are modelled from the spec's data model, restricted to the fields the
importer reads or that the verified properties inspect). -/

/-- Modelled from the spec: the `NewPolicy` enum from `laniakea.db`
(`DEFAULT`, `ALWAYS_NEW`, `NEVER_NEW`, as referenced by `pkgimport.py`). -/
inductive NewPolicy where
  | default
  | alwaysNew
  | neverNew
deriving DecidableEq

/-- Modelled from the spec: the `DebType` enum from `laniakea.db`. -/
inductive DebType where
  | deb
  | udeb
deriving DecidableEq

/-- Modelled from the spec: `str(DebType...)`, the file extension used in
deterministic pool filenames. -/
def debTypeStr : DebType → String
  | DebType.deb => "deb"
  | DebType.udeb => "udeb"

/-- A `SourcePackage` row as populated by `import_source`.  Fields the code
stores but no verified property inspects (e.g. standards version) are
elided. -/
structure SrcPkg where
  name : String
  version : String
  component : String
  suites : List String
  files : List AFile
  expectedBinaries : List String
  directory : String
  formatVersion : String
  architectures : List String
  maintainer : String
  uploaders : List String
  buildDepends : List String
  buildDependsIndep : List String
  buildConflicts : List String
  buildConflictsIndep : List String
  extraData : List (String × String)
deriving DecidableEq

/-- A `BinaryPackage` row as populated by `import_binary` (fields stored
verbatim and never re-read are elided). -/
structure BinPkg where
  name : String
  version : String
  arch : String
  sourceName : String
  sourceVersion : String
  suites : List String
deriving DecidableEq

/-- An `ArchiveQueueNewEntry`: a pending source package together with its
destination suite. -/
structure NQEntry where
  package : SrcPkg
  destSuite : String
deriving DecidableEq

/-- The state visible to one `PackageImporter` instance: the rows of its
repository (version memory, packages, NEW queue, overrides keyed by
(suite, package)), the configured components and architectures, the pool
and NEW-queue directory trees (path to file content), and the set of suites
whose `changes_pending` flag is set. -/
structure ImportState where
  vmem : List (String × String)
  sources : List SrcPkg
  binaries : List BinPkg
  nqueue : List NQEntry
  overrides : List (String × String)
  components : List String
  archs : List String
  pool : List (String × FileContent)
  newqFiles : List (String × FileContent)
  changesPending : List String
deriving DecidableEq

/-- One line of a `Files`/`Checksums-*` section of a `.dsc` stanza. -/
structure ChecksumEntry where
  digest : String
  size : String
  fname : String
deriving DecidableEq

/-- The control stanza rendered from a `.dsc` by `apt-ftparchive sources`
(the renderer is an external collaborator).  `expectedBinaries` stands for
the result of the delegated `Package-List`/`Binary` parsing
(`parse_package_list_str` lives in `laniakea.archive.utils`, outside the
provided sources); only the binary names drive the importer's control flow
(the override check). -/
structure DscStanza where
  pkg : String
  version : String
  format : String
  architectures : List String
  maintainer : String
  uploaders : List String
  buildDepends : List String
  buildDependsIndep : List String
  buildConflicts : List String
  buildConflictsIndep : List String
  expectedBinaries : List String
  md5Files : List ChecksumEntry
  sha1Files : List ChecksumEntry
  sha256Files : List ChecksumEntry
  sha512Files : Option (List ChecksumEntry)
  extra : List (String × String)
deriving DecidableEq

/-- The control stanza rendered from a `.deb` by `apt-ftparchive packages`,
restricted to the fields `import_binary` reads. -/
structure BinStanza where
  pkg : String
  version : String
  arch : String
  maintainer : String
  sizeInstalled : String
  source : Option String
  size : String
  md5 : String
  sha1 : String
  sha256 : String
  sha512 : Option String
  description : String
  extra : List (String × String)
deriving DecidableEq

/-- Modelled from the spec: `pool_dir_from_name` from
`laniakea.archive.utils` (not among the provided sources): short-name
bucketing by first letter, `lib*` packages bucketed by their first four
characters. -/
def pool_dir_from_name (name : String) : String :=
  if "lib".data.isPrefixOf name.data then
    "pool/" ++ String.mk (name.data.take 4) ++ "/" ++ name
  else "pool/" ++ String.mk (name.data.take 1) ++ "/" ++ name

/-- Make an `ArchiveFile` record from one line of the mandatory MD5
(`Files`) section. -/
def newAFileMd5 (e : ChecksumEntry) : AFile :=
  { fname := e.fname
    size := some e.size
    md5sum := some e.digest
    sha1sum := none
    sha256sum := none
    sha512sum := none }

/-- Merge one checksum section into existing per-filename records; a file
missing from the section is a malformed-index error. -/
def applySection (set : AFile → String → AFile) (entries : List ChecksumEntry) :
    List AFile → Except ImpErr (List AFile)
  | [] => Except.ok []
  | f :: fs =>
    match entries.find? (fun e => e.fname == f.fname) with
    | none => Except.error (ImpErr.malformedChecksums f.fname)
    | some e =>
      match applySection set entries fs with
      | Except.error err => Except.error err
      | Except.ok rest => Except.ok (set f e.digest :: rest)

/-- Merge one checksum section, also rejecting sections that mention files
absent from the mandatory section. -/
def mergeSection (set : AFile → String → AFile) (files : List AFile)
    (entries : List ChecksumEntry) : Except ImpErr (List AFile) :=
  if entries.length = files.length then applySection set entries files
  else Except.error (ImpErr.malformedChecksums "")

/-- Modelled from the spec: `checksums_list_to_file` from
`laniakea.archive.utils` (not among the provided sources), as chained in
`import_source` lines 222-225: build the per-file checksum set by merging
the four independently declared sections keyed by filename.  MD5 (`Files`)
is mandatory, SHA1/SHA256 are expected, SHA512 is optional (`pop` with
default `None`); an absent SHA512 section leaves `sha512sum` unset. -/
def checksums_list_to_file (md5s sha1s sha256s : List ChecksumEntry)
    (sha512s : Option (List ChecksumEntry)) : Except ImpErr (List AFile) :=
  let base := md5s.map newAFileMd5
  match mergeSection (fun f d => { f with sha1sum := some d }) base sha1s with
  | Except.error e => Except.error e
  | Except.ok fs1 =>
    match mergeSection (fun f d => { f with sha256sum := some d }) fs1 sha256s with
    | Except.error e => Except.error e
    | Except.ok fs2 =>
      match sha512s with
      | none => Except.ok fs2
      | some es => mergeSection (fun f d => { f with sha512sum := some d }) fs2 es

/-- Set `highest_version` on the version-memory row(s) with the given
package name. -/
def setVmem (k v : String) : List (String × String) → List (String × String)
  | [] => []
  | (a, b) :: t => if a = k then (k, v) :: setVmem k v t else (a, b) :: setVmem k v t

/-- `package_mark_published` (`pkgimport.py` lines 58-80): update the
version-memory row for the package, or create it, setting
`highest_version` to the given version unconditionally. -/
def package_mark_published (vmem : List (String × String)) (pkgname version : String) :
    List (String × String) :=
  match alookup pkgname vmem with
  | some _ => setVmem pkgname version vmem
  | none => vmem ++ [(pkgname, version)]

/-- The version-memory guard of `import_source` (lines 165-178): a row for
this package whose `highest_version` compares strictly greater than the
proposed version blocks the import. -/
def vmemBlocksSource (vmem : List (String × String)) (pkg v : String) : Bool :=
  match alookup pkg vmem with
  | some hv => decide (debVersionCompare hv v = Ordering.gt)
  | none => false

/-- The NEW-queue query shared by `import_source` (lines 184-193) and
`import_binary` (lines 377-387): the entry for this destination suite whose
package matches the given name and version. -/
def findNQ (suite pkg ver : String) (q : List NQEntry) : Option NQEntry :=
  q.find? (fun e => e.destSuite == suite && e.package.name == pkg &&
    e.package.version == ver)

/-- The published-source query of `import_binary` (lines 365-374): a source
package of this repository, admitted to the destination suite, with the
given name and version. -/
def findPublishedSource (suite name ver : String) (ss : List SrcPkg) : Option SrcPkg :=
  ss.find? (fun s => s.name == name && s.version == ver && s.suites.contains suite)

/-- Delete the NEW-queue entry for the given key
(`session.delete(nq_entry)`). -/
def removeNQ (suite pkg ver : String) : List NQEntry → List NQEntry
  | [] => []
  | e :: t =>
    if e.destSuite = suite ∧ e.package.name = pkg ∧ e.package.version = ver then t
    else e :: removeNQ suite pkg ver t

/-- Update the NEW-queue entry for the package's key, or create one
(`nq_entry.package = spkg; nq_entry.destination = ...`). -/
def putNQ (suite : String) (p : SrcPkg) : List NQEntry → List NQEntry
  | [] => [⟨p, suite⟩]
  | e :: t =>
    if e.destSuite = suite ∧ e.package.name = p.name ∧ e.package.version = p.version then
      ⟨p, suite⟩ :: t
    else e :: putNQ suite p t

/-- The first loop over the source's files (`import_source` lines 238-247):
verify each file's hashes in place at its staging location, then prefix the
pool directory onto its name.  A missing staging file is the
`FileNotFoundError` of `open`. -/
def verifyRename (dirName : String) (staged : List (String × FileContent)) :
    List AFile → Except ImpErr (List AFile)
  | [] => Except.ok []
  | f :: fs =>
    match alookup f.fname staged with
    | none => Except.error (ImpErr.stagedFileMissing f.fname)
    | some c =>
      match verify_hashes f c with
      | Except.error e => Except.error e
      | Except.ok _ =>
        match verifyRename dirName staged fs with
        | Except.error e => Except.error e
        | Except.ok rest => Except.ok ({ f with fname := dirName ++ "/" ++ f.fname } :: rest)

/-- The copy loop of `import_source` (lines 271-284): each file goes to the
NEW-queue directory or to the archive pool; an already occupied destination
raises before anything is written to it (`_copy_or_move` then copies and,
outside keep-sources mode, unlinks the staging copy, which lives outside
the archive state). -/
def copyLoop (isNew : Bool) (staged : List (String × FileContent)) (st : ImportState) :
    List AFile → Except (ImpErr × ImportState) ImportState
  | [] => Except.ok st
  | f :: fs =>
    match alookup f.fname (if isNew then st.newqFiles else st.pool) with
    | some _ => Except.error (ImpErr.destinationExists f.fname, st)
    | none =>
      match alookup (basename f.fname) staged with
      | none => Except.error (ImpErr.stagedFileMissing f.fname, st)
      | some c =>
        let st' := if isNew then { st with newqFiles := fsPut st.newqFiles f.fname c }
          else { st with pool := fsPut st.pool f.fname c }
        copyLoop isNew staged st' fs

/-- The post-copy database effects of `import_source` (lines 286-313): a
NEW package updates or creates its queue entry and registers nothing else;
a published package is appended to the suite's sources, any now-obsolete
NEW entry is dropped, `NEVER_NEW` registers the previously missing
overrides, the Version Ledger is advanced via `package_mark_published`,
and the suite's pending-changes flag is set. -/
def finalizeSource (suite pkgname version : String) (pol : NewPolicy) (hadNQ : Bool)
    (spkgF : SrcPkg) (missing : List String) (isNew : Bool) (st2 : ImportState) :
    ImportState :=
  if isNew then { st2 with nqueue := putNQ suite spkgF st2.nqueue }
  else
    { st2 with
      sources := st2.sources ++ [spkgF]
      nqueue := if hadNQ then removeNQ suite pkgname version st2.nqueue else st2.nqueue
      overrides :=
        (match pol with
         | NewPolicy.neverNew => st2.overrides ++ missing.map (fun b => (suite, b))
         | _ => st2.overrides)
      vmem := package_mark_published st2.vmem pkgname version
      changesPending := insertStr suite st2.changesPending }

/-- `PackageImporter.import_source`: import a source package into the given
suite or its NEW queue, following `pkgimport.py` lines 140-313.  `suite` is
the repo-suite of the importer, `pol` the NEW policy, `staged` the upload
directory (`dsc_dir`).  Errors carry the state at the raise site; database
effects of a run that ends in an exception are not committed. -/
def import_source (suite : String) (pol : NewPolicy) (compName : String)
    (st : ImportState) (dsc : DscStanza) (staged : List (String × FileContent)) :
    Except (ImpErr × ImportState) ImportState :=
  let pkgname := dsc.pkg
  let version := dsc.version
  if vmemBlocksSource st.vmem pkgname version then
    Except.error (ImpErr.versionRegression pkgname, st)
  else if compName ∈ st.components then
    let nq := findNQ suite pkgname version st.nqueue
    let spkg0 : SrcPkg :=
      match nq with
      | some e => e.package
      | none =>
          { name := pkgname
            version := version
            component := compName
            suites := []
            files := []
            expectedBinaries := []
            directory := ""
            formatVersion := ""
            architectures := []
            maintainer := ""
            uploaders := []
            buildDepends := []
            buildDependsIndep := []
            buildConflicts := []
            buildConflictsIndep := []
            extraData := [] }
    let spkg1 := { spkg0 with
      formatVersion := dsc.format
      architectures := dsc.architectures
      maintainer := dsc.maintainer
      uploaders := dsc.uploaders
      buildDepends := dsc.buildDepends
      buildDependsIndep := dsc.buildDependsIndep
      buildConflicts := dsc.buildConflicts
      buildConflictsIndep := dsc.buildConflictsIndep
      expectedBinaries := dsc.expectedBinaries
      directory := pool_dir_from_name pkgname
      extraData := dsc.extra }
    match checksums_list_to_file dsc.md5Files dsc.sha1Files dsc.sha256Files dsc.sha512Files with
    | Except.error e => Except.error (e, st)
    | Except.ok files =>
      let st1 := if spkg1.files.isEmpty then st
        else { st with newqFiles :=
          st.newqFiles.filter (fun kv => !(spkg1.files.any (fun f => f.fname == kv.1))) }
      let spkg2 := { spkg1 with files := [] }
      match verifyRename spkg2.directory staged files with
      | Except.error e => Except.error (e, st1)
      | Except.ok files2 =>
        let missing := spkg2.expectedBinaries.filter
          (fun b => !(st1.overrides.contains (suite, b)))
        let isNew : Bool :=
          match pol with
          | NewPolicy.neverNew => false
          | NewPolicy.alwaysNew => true
          | NewPolicy.default => !missing.isEmpty
        match copyLoop isNew staged st1 files2 with
        | Except.error e => Except.error e
        | Except.ok st2 =>
          let spkgF := { spkg2 with
            files := files2
            suites := if isNew then spkg2.suites else spkg2.suites ++ [suite] }
          Except.ok (finalizeSource suite pkgname version pol nq.isSome spkgF missing isNew st2)
  else
    Except.error (ImpErr.unknownComponent compName, st)

/-- The deterministic pool path computed by `import_binary` (lines
399-403): pool directory of the owning source, then
`name_upstreamversion_arch.debtype` with the epoch stripped; the package
type comes from the upload file's extension, not from metadata. -/
def binPoolFname (debFname : String) (srcName : String) (bs : BinStanza) : String :=
  pool_dir_from_name srcName ++ "/" ++ bs.pkg ++ "_" ++
    (split_epoch bs.version).2 ++ "_" ++ bs.arch ++ "." ++
    debTypeStr (if strEndsWith debFname ".udeb" then DebType.udeb else DebType.deb)

/-- The `ArchiveFile` record built by `import_binary` (lines 405-410) from
the stanza's declared checksums; `SHA512` is popped with default `None`. -/
def binAFile (debFname : String) (srcName : String) (bs : BinStanza) : AFile :=
  { fname := binPoolFname debFname srcName bs
    size := some bs.size
    md5sum := some bs.md5
    sha1sum := some bs.sha1
    sha256sum := some bs.sha256
    sha512sum := bs.sha512 }

/-- `PackageImporter.import_binary`: import a binary package into the given
suite or file it alongside its NEW-queue source, following `pkgimport.py`
lines 315-495.  `debFname` is the upload path (its extension selects the
package type), `bs` the stanza rendered by `apt-ftparchive packages`,
`content` the actual file.  A binary whose source is in NEW is copied into
the NEW-queue directory (replacing any previous copy) and registers
nothing in the database. -/
def import_binary (suite : String) (compName : String) (st : ImportState)
    (debFname : String) (bs : BinStanza) (content : FileContent) :
    Except (ImpErr × ImportState) ImportState :=
  let pkgname := bs.pkg
  let version := bs.version
  if bs.arch ∈ st.archs then
    match binSourceFieldImport (bs.source.map String.data) pkgname.data version.data with
    | none => Except.error (ImpErr.valueError, st)
    | some (snL, svL) =>
      let sname := String.mk snL
      let sversion := String.mk svL
      let found :=
        match findPublishedSource suite sname sversion st.sources with
        | some s => some (s, false)
        | none =>
          match findNQ suite sname sversion st.nqueue with
          | some e => some (e.package, true)
          | none => none
      match found with
      | none => Except.error (ImpErr.orphanedBinary pkgname, st)
      | some (src, isNew) =>
        let poolFname := binPoolFname debFname src.name bs
        let af : AFile := binAFile debFname src.name bs
        match verify_hashes af content with
        | Except.error e => Except.error (e, st)
        | Except.ok _ =>
          if isNew then
            Except.ok { st with newqFiles := fsPut st.newqFiles poolFname content }
          else
            if (suite, pkgname) ∈ st.overrides then
              if compName ∈ st.components then
                match alookup poolFname st.pool with
                | some _ => Except.error (ImpErr.destinationExists poolFname, st)
                | none =>
                  Except.ok { st with
                    pool := fsPut st.pool poolFname content
                    binaries := st.binaries ++ [{ name := pkgname
                                                  version := version
                                                  arch := bs.arch
                                                  sourceName := src.name
                                                  sourceVersion := src.version
                                                  suites := [suite] }]
                    vmem := package_mark_published st.vmem pkgname version
                    changesPending := insertStr suite st.changesPending }
              else Except.error (ImpErr.unknownComponent compName, st)
            else Except.error (ImpErr.missingOverride pkgname, st)
  else
    Except.error (ImpErr.unknownArch bs.arch, st)

/- ### The Upload Handler (`UploadHandler.process_changes`) -/

/-- An `ArchiveUploader` row: trusted fingerprints and policy flags. -/
structure Uploader where
  name : String
  fingerprints : List String
  allowSourceUploads : Bool
  allowBinaryUploads : Bool
  alwaysReview : Bool
deriving DecidableEq

/-- One entry of the `Files` list of a `.changes` manifest (filename and
target component). -/
structure UploadFileRef where
  fname : String
  component : String
deriving DecidableEq

/-- Modelled from the spec: the parsed `.changes` manifest produced by
`parse_changes` (`laniakea.archive.changes`, not among the provided
sources).  `validSignature` is whether the mandatory signature check
passed (`parse_changes` raises otherwise); `filesResult` is the `files`
property, whose error side is the `InvalidChangesException` for a
malformed manifest. -/
structure ChangesData where
  validSignature : Bool
  fingerprint : String
  weakSignature : Bool
  distributions : List String
  sourceful : Bool
  sourceName : String
  version : String
  filesResult : Except String (List UploadFileRef)

/-- The observable outcome of `process_changes`: either an exception
propagates (`raised`), or a `(False, uploader, reason)` tuple is returned
(`rejected`), or `(True, uploader, None)` (`accepted`). -/
inductive ChangesOutcome where
  | raised (msg : String)
  | rejected (uploader : String) (reason : String)
  | accepted (uploader : String)
deriving DecidableEq

/-- Whether an outcome is a propagated exception. -/
def isRaised : ChangesOutcome → Bool
  | ChangesOutcome.raised _ => true
  | _ => false

/-- The source-package part of `process_changes` (lines 624-646): find the
first `.dsc` entry, reject path-separator names, import it and stop
(`break`); any importer exception is caught and returned as a rejection.
A file whose stanza cannot be rendered is the `apt-ftparchive` failure,
also caught by the handler's `except Exception`. -/
def processSourceDsc (suite : String) (pol : NewPolicy)
    (dscStanzas : List (String × DscStanza)) (staged : List (String × FileContent))
    (uName : String) (st : ImportState) :
    List UploadFileRef → Except ChangesOutcome ImportState
  | [] => Except.ok st
  | f :: fs =>
    if strEndsWith f.fname ".dsc" then
      if '/' ∈ f.fname.data then
        Except.error (ChangesOutcome.rejected uName
          ("Invalid source package filename: " ++ f.fname))
      else
        match alookup f.fname dscStanzas with
        | none => Except.error (ChangesOutcome.rejected uName
            "Failed to import source package: rendering the control stanza failed")
        | some d =>
          match import_source suite pol f.component st d staged with
          | Except.error (e, _) => Except.error (ChangesOutcome.rejected uName
              ("Failed to import source package: " ++ e.msg))
          | Except.ok st2 => Except.ok st2
    else processSourceDsc suite pol dscStanzas staged uName st fs

/-- The binary-package part of `process_changes` (lines 648-666): import
every `.deb`/`.udeb` entry in order, rejecting path-separator names and
converting each importer exception into a rejection; success over all
files yields the accepted outcome (line 666). -/
def processBinaries (suite : String) (binStanzas : List (String × BinStanza))
    (staged : List (String × FileContent)) (uName : String) :
    ImportState → List UploadFileRef → ChangesOutcome
  | _, [] => ChangesOutcome.accepted uName
  | st, f :: fs =>
    if strEndsWith f.fname ".deb" ∨ strEndsWith f.fname ".udeb" then
      if '/' ∈ f.fname.data then
        ChangesOutcome.rejected uName ("Invalid binary package filename: " ++ f.fname)
      else
        match alookup f.fname binStanzas, alookup f.fname staged with
        | some bs, some c =>
          match import_binary suite f.component st f.fname bs c with
          | Except.error (e, _) => ChangesOutcome.rejected uName
              ("Failed to import binary package: " ++ e.msg)
          | Except.ok st2 => processBinaries suite binStanzas staged uName st2 fs
        | _, _ => ChangesOutcome.rejected uName
            "Failed to import binary package: rendering the control stanza failed"
    else processBinaries suite binStanzas staged uName st fs

/-- `UploadHandler.process_changes` (lines 511-666).  Exceptions become
`ChangesOutcome.raised`: the missing/invalid-signature raise of
`parse_changes`, the `UploadException` for an unmatched fingerprint, and
the `NoResultFound` of the `.one()` query for the repo-suite settings when
the single target distribution names no configured suite.  Everything else
follows the return statements of the handler. -/
def process_changes (repoName : String) (uploaders : List Uploader)
    (suiteConfigs : List (String × NewPolicy))
    (dscStanzas : List (String × DscStanza)) (binStanzas : List (String × BinStanza))
    (staged : List (String × FileContent)) (st : ImportState) (ch : ChangesData) :
    ChangesOutcome :=
  if ch.validSignature then
    match uploaders.find? (fun u => u.fingerprints.contains ch.fingerprint) with
    | none => ChangesOutcome.raised
        ("Unable to find registered uploader for fingerprint \"" ++ ch.fingerprint ++ "\"")
    | some uploader =>
      if ch.weakSignature then
        ChangesOutcome.rejected uploader.name
          "The GPG signature is weak, please sign the upload with a stronger key."
      else
        match ch.distributions with
        | [suiteName] =>
          if ch.sourceful ∧ ¬uploader.allowSourceUploads then
            ChangesOutcome.rejected uploader.name
              "This uploader is not permitted to make sourceful uploads."
          else
            match alookup suiteName suiteConfigs with
            | none => ChangesOutcome.raised "No row was found when one was required"
            | some rssPolicy =>
              let blocked : Bool :=
                match alookup ch.sourceName st.vmem with
                | some hv => decide (debVersionCompare hv ch.version ≠ Ordering.lt)
                | none => false
              if blocked then
                ChangesOutcome.rejected uploader.name
                  ("We have already seen higher or equal version of source package \"" ++
                   ch.sourceName ++ "\" in repository \"" ++ repoName ++ "\" before.")
              else
                match ch.filesResult with
                | Except.error e => ChangesOutcome.rejected uploader.name
                    ("This changes file was invalid: " ++ e ++ ".")
                | Except.ok files =>
                  if ¬uploader.allowBinaryUploads ∧
                      files.any (fun f => strEndsWith f.fname ".deb" || strEndsWith f.fname ".udeb") then
                    ChangesOutcome.rejected uploader.name
                      "This uploader is not allowed to upload binaries. Please upload a source-only package!."
                  else
                    let pol := if uploader.alwaysReview then NewPolicy.alwaysNew else rssPolicy
                    match processSourceDsc suiteName pol dscStanzas staged uploader.name st files with
                    | Except.error out => out
                    | Except.ok st1 =>
                        processBinaries suiteName binStanzas staged uploader.name st1 files
        | _ => ChangesOutcome.rejected uploader.name
            "Invalid amount of distributions set in this changes file."
  else
    ChangesOutcome.raised "The changes file has no valid signature"

/- ### Helper lemmas -/

/-- The state in which an importer run ends, also for runs that raise. -/
def outState : Except (ImpErr × ImportState) ImportState → ImportState
  | Except.ok s => s
  | Except.error (_, s) => s

theorem alookup_fsPut_same {β : Type} (m : List (String × β)) (k : String) (v : β) :
    alookup k (fsPut m k v) = some v := by
  induction m with
  | nil => simp [fsPut, alookup]
  | cons hd t ih =>
    obtain ⟨a, b⟩ := hd
    by_cases hk : a = k
    · subst hk; simp [fsPut, alookup]
    · simp [fsPut, hk, alookup, ih]

theorem alookup_fsPut_other {β : Type} (m : List (String × β)) (k p : String) (v : β)
    (h : p ≠ k) : alookup p (fsPut m k v) = alookup p m := by
  have hkp : ¬k = p := fun hh => h hh.symm
  induction m with
  | nil => simp [fsPut, alookup, hkp]
  | cons hd t ih =>
    obtain ⟨a, b⟩ := hd
    by_cases hk : a = k
    · subst hk
      have hap : ¬a = p := fun hh => h hh.symm
      simp [fsPut, alookup, hap]
    · simp [fsPut, hk, alookup, ih]

theorem alookup_append_right {β : Type} (m l : List (String × β)) (p : String)
    (h : alookup p m = none) : alookup p (m ++ l) = alookup p l := by
  induction m with
  | nil => simp
  | cons hd t ih =>
    obtain ⟨a, b⟩ := hd
    by_cases ha : a = p
    · simp [alookup, ha] at h
    · simp only [alookup, List.cons_append, ha, if_false] at h ⊢
      exact ih h

theorem alookup_append_left {β : Type} (m l : List (String × β)) (p : String) (w : β)
    (h : alookup p m = some w) : alookup p (m ++ l) = some w := by
  induction m with
  | nil => simp [alookup] at h
  | cons hd t ih =>
    obtain ⟨a, b⟩ := hd
    by_cases ha : a = p
    · subst ha
      simp only [alookup, if_pos rfl] at h
      simpa [alookup] using h
    · simp only [alookup, ha, if_false] at h
      simp only [List.cons_append, alookup, ha, if_false]
      exact ih h

theorem alookup_setVmem_same (t : List (String × String)) (k v w : String)
    (h : alookup k t = some w) :
    alookup k (setVmem k v t) = some v := by
  induction t with
  | nil => simp [alookup] at h
  | cons hd l ih =>
    obtain ⟨a, b⟩ := hd
    by_cases ha : a = k
    · subst ha; simp [setVmem, alookup]
    · simp only [alookup, ha, if_false] at h
      simp [setVmem, ha, alookup, ih h]

theorem alookup_setVmem_other (t : List (String × String)) (k p v : String)
    (h : p ≠ k) :
    alookup p (setVmem k v t) = alookup p t := by
  induction t with
  | nil => simp [setVmem]
  | cons hd l ih =>
    obtain ⟨a, b⟩ := hd
    by_cases ha : a = k
    · subst ha
      have hap : ¬a = p := fun hh => h hh.symm
      simp [setVmem, alookup, hap, ih]
    · by_cases hp : a = p
      · subst hp
        simp [setVmem, alookup, ha, ih]
      · simp [setVmem, alookup, ha, hp, ih]

theorem alookup_mark_published_same (m : List (String × String)) (k v : String) :
    alookup k (package_mark_published m k v) = some v := by
  unfold package_mark_published
  cases h : alookup k m with
  | some w => exact alookup_setVmem_same m k v w h
  | none =>
    rw [alookup_append_right m _ k h]
    simp [alookup]

theorem alookup_mark_published_other (m : List (String × String)) (k p v : String)
    (h : p ≠ k) : alookup p (package_mark_published m k v) = alookup p m := by
  unfold package_mark_published
  cases hk : alookup k m with
  | some w => exact alookup_setVmem_other m k p v h
  | none =>
    cases hp : alookup p m with
    | some w => exact alookup_append_left m _ p w hp
    | none =>
      rw [alookup_append_right m _ p hp]
      have hkp : ¬k = p := fun hh => h hh.symm
      simp [alookup, hkp]

theorem verifyLoop_ok_count (f : AFile) :
    ∀ (hs : List HashEntry) (n m : Nat), verifyLoop f hs n = Except.ok m → m = n + hs.length := by
  intro hs
  induction hs with
  | nil =>
    intro n m h
    simp only [verifyLoop] at h
    injection h with h1
    subst h1
    simp
  | cons e t ih =>
    intro n m h
    unfold verifyLoop at h
    cases he : hashMatches f e with
    | error err => rw [he] at h; simp at h
    | ok b =>
      rw [he] at h
      cases b with
      | true =>
        simp only at h
        have hm := ih (n + 1) m h
        rw [List.length_cons]
        omega
      | false => simp at h

theorem verifyLoop_cons_true (f : AFile) (e : HashEntry) (t : List HashEntry) (n : Nat)
    (he : hashMatches f e = Except.ok true) :
    verifyLoop f (e :: t) n = verifyLoop f t (n + 1) := by
  conv_lhs => unfold verifyLoop
  rw [he]

theorem verifyLoop_skip_passing (f : AFile) :
    ∀ (pre rest : List HashEntry) (n : Nat),
      (∀ h' ∈ pre, hashMatches f h' = Except.ok true) →
      verifyLoop f (pre ++ rest) n = verifyLoop f rest (n + pre.length) := by
  intro pre
  induction pre with
  | nil => intro rest n _; simp
  | cons e t ih =>
    intro rest n hp
    have he : hashMatches f e = Except.ok true := hp e (by simp)
    rw [List.cons_append, verifyLoop_cons_true f e (t ++ rest) n he,
      ih rest (n + 1) (fun h' hm => hp h' (by simp [hm]))]
    have harith : n + 1 + t.length = n + (e :: t).length := by
      rw [List.length_cons]; omega
    rw [harith]

/-- Equality of all database-resident parts of two states (everything but
the pool and NEW-queue directory trees). -/
def dbEq (s t : ImportState) : Prop :=
  s.vmem = t.vmem ∧ s.sources = t.sources ∧ s.binaries = t.binaries ∧
  s.nqueue = t.nqueue ∧ s.overrides = t.overrides ∧ s.components = t.components ∧
  s.archs = t.archs ∧ s.changesPending = t.changesPending

theorem dbEq_refl (s : ImportState) : dbEq s s :=
  ⟨rfl, rfl, rfl, rfl, rfl, rfl, rfl, rfl⟩

theorem dbEq_trans {a b c : ImportState} (h1 : dbEq a b) (h2 : dbEq b c) : dbEq a c := by
  obtain ⟨x1, x2, x3, x4, x5, x6, x7, x8⟩ := h1
  obtain ⟨y1, y2, y3, y4, y5, y6, y7, y8⟩ := h2
  exact ⟨x1.trans y1, x2.trans y2, x3.trans y3, x4.trans y4, x5.trans y5,
    x6.trans y6, x7.trans y7, x8.trans y8⟩

theorem copyLoop_dbEq (isNew : Bool) (staged : List (String × FileContent)) :
    ∀ (files : List AFile) (st : ImportState),
      dbEq (outState (copyLoop isNew staged st files)) st := by
  intro files
  induction files with
  | nil => intro st; exact dbEq_refl st
  | cons f fs ih =>
    intro st
    unfold copyLoop
    cases hd : alookup f.fname (if isNew then st.newqFiles else st.pool) with
    | some c2 => exact dbEq_refl st
    | none =>
      cases hs : alookup (basename f.fname) staged with
      | none => exact dbEq_refl st
      | some c2 =>
        refine dbEq_trans (ih _) ?_
        have : dbEq (if isNew then { st with newqFiles := fsPut st.newqFiles f.fname c2 }
            else { st with pool := fsPut st.pool f.fname c2 }) st := by
          split
          · exact ⟨rfl, rfl, rfl, rfl, rfl, rfl, rfl, rfl⟩
          · exact ⟨rfl, rfl, rfl, rfl, rfl, rfl, rfl, rfl⟩
        exact this

theorem copyLoop_pool (isNew : Bool) (staged : List (String × FileContent)) :
    ∀ (files : List AFile) (st : ImportState) (p : String) (c : FileContent),
      alookup p st.pool = some c →
      alookup p (outState (copyLoop isNew staged st files)).pool = some c := by
  intro files
  induction files with
  | nil => intro st p c h; exact h
  | cons f fs ih =>
    intro st p c h
    unfold copyLoop
    cases hd : alookup f.fname (if isNew then st.newqFiles else st.pool) with
    | some c2 => exact h
    | none =>
      cases hs : alookup (basename f.fname) staged with
      | none => exact h
      | some c2 =>
        dsimp only
        apply ih
        rcases Bool.eq_false_or_eq_true isNew with hb | hb
        · subst hb
          show alookup p st.pool = some c
          exact h
        · subst hb
          show alookup p (fsPut st.pool f.fname c2) = some c
          have hne : p ≠ f.fname := by
            intro he
            rw [he] at h
            have hd' : alookup f.fname st.pool = none := hd
            rw [h] at hd'
            cases hd'
          rw [alookup_fsPut_other _ _ _ _ hne]
          exact h

theorem copyLoop_occupied (staged : List (String × FileContent)) :
    ∀ (files : List AFile) (st : ImportState) (p : String) (c : FileContent),
      alookup p st.pool = some c →
      (∃ f ∈ files, f.fname = p) →
      (∀ f ∈ files, (alookup (basename f.fname) staged).isSome = true) →
      ∃ fn stE, copyLoop false staged st files =
          Except.error (ImpErr.destinationExists fn, stE) ∧
        alookup p stE.pool = some c := by
  intro files
  induction files with
  | nil =>
    intro st p c _ hex _
    rcases hex with ⟨f, hf, _⟩
    cases hf
  | cons f fs ih =>
    intro st p c hp hex hstaged
    unfold copyLoop
    have hred : (if (false : Bool) = true then st.newqFiles else st.pool) = st.pool := rfl
    rw [hred]
    cases hd : alookup f.fname st.pool with
    | some c2 => exact ⟨f.fname, st, rfl, hp⟩
    | none =>
      have hne : f.fname ≠ p := by
        intro he; rw [he] at hd; rw [hd] at hp; cases hp
      have hexs : ∃ g ∈ fs, g.fname = p := by
        rcases hex with ⟨g, hg, hgp⟩
        rcases List.mem_cons.mp hg with hgf | hgfs
        · exact absurd (hgf ▸ hgp) hne
        · exact ⟨g, hgfs, hgp⟩
      cases hs : alookup (basename f.fname) staged with
      | none =>
        have := hstaged f (List.mem_cons_self f fs)
        rw [hs] at this
        cases this
      | some c2 =>
        dsimp only
        have hST : alookup p (fsPut st.pool f.fname c2) = some c := by
          rw [alookup_fsPut_other _ _ _ _ (fun hh => hne hh.symm)]
          exact hp
        exact ih _ p c hST hexs (fun g hg => hstaged g (List.mem_cons_of_mem f hg))

theorem copyLoop_pool_ok {isNew : Bool} {staged : List (String × FileContent)}
    {files : List AFile} {st st2 : ImportState} {p : String} {c : FileContent}
    (heq : copyLoop isNew staged st files = Except.ok st2)
    (h : alookup p st.pool = some c) : alookup p st2.pool = some c := by
  have h0 := copyLoop_pool isNew staged files st p c h
  rw [heq] at h0
  exact h0

theorem copyLoop_pool_error {isNew : Bool} {staged : List (String × FileContent)}
    {files : List AFile} {st : ImportState} {pr : ImpErr × ImportState} {p : String}
    {c : FileContent}
    (heq : copyLoop isNew staged st files = Except.error pr)
    (h : alookup p st.pool = some c) : alookup p pr.2.pool = some c := by
  have h0 := copyLoop_pool isNew staged files st p c h
  rw [heq] at h0
  exact h0

theorem copyLoop_dbEq_ok {isNew : Bool} {staged : List (String × FileContent)}
    {files : List AFile} {st st2 : ImportState}
    (heq : copyLoop isNew staged st files = Except.ok st2) : dbEq st2 st := by
  have h0 := copyLoop_dbEq isNew staged files st
  rw [heq] at h0
  exact h0

theorem finalizeSource_pool (suite pkgname version : String) (pol : NewPolicy)
    (hadNQ : Bool) (spkgF : SrcPkg) (missing : List String) (isNew : Bool)
    (st2 : ImportState) :
    (finalizeSource suite pkgname version pol hadNQ spkgF missing isNew st2).pool =
      st2.pool := by
  unfold finalizeSource
  split <;> rfl

theorem finalizeSource_vmem (suite pkgname version : String) (pol : NewPolicy)
    (hadNQ : Bool) (spkgF : SrcPkg) (missing : List String) (isNew : Bool)
    (st2 : ImportState) :
    (finalizeSource suite pkgname version pol hadNQ spkgF missing isNew st2).vmem =
      if isNew then st2.vmem else package_mark_published st2.vmem pkgname version := by
  cases isNew <;> rfl

theorem import_source_pool_preserved (suite : String) (pol : NewPolicy) (comp : String)
    (st : ImportState) (dsc : DscStanza) (staged : List (String × FileContent))
    (p : String) (c : FileContent) (h : alookup p st.pool = some c) :
    alookup p (outState (import_source suite pol comp st dsc staged)).pool = some c := by
  unfold import_source
  dsimp only
  split
  · exact h
  · split
    · split
      · exact h
      · split
        · split <;> exact h
        · split
          · next pr heq2 =>
            exact copyLoop_pool_error heq2 (by split <;> exact h)
          · next st2 heq2 =>
            rw [show ∀ (r : ImportState), outState (Except.ok r) = r from fun _ => rfl]
            rw [finalizeSource_pool]
            exact copyLoop_pool_ok heq2 (by split <;> exact h)
    · exact h

theorem prop_of_ite {α : Type} {P : Prop} [Decidable P] {A B : α} (Q : α → Prop)
    (h1 : Q A) (h2 : Q B) : Q (if P then A else B) := by
  split
  · exact h1
  · exact h2

theorem import_source_ok_vmem (suite : String) (pol : NewPolicy) (comp : String)
    (st : ImportState) (dsc : DscStanza) (staged : List (String × FileContent))
    (st' : ImportState)
    (h : import_source suite pol comp st dsc staged = Except.ok st') :
    st'.vmem = st.vmem ∨
      (st'.vmem = package_mark_published st.vmem dsc.pkg dsc.version ∧
       vmemBlocksSource st.vmem dsc.pkg dsc.version = false) := by
  unfold import_source at h
  dsimp only at h
  split at h
  · exact Except.noConfusion h
  · next hguard =>
    split at h
    · split at h
      · exact Except.noConfusion h
      · split at h
        · exact Except.noConfusion h
        · split at h
          · exact Except.noConfusion h
          · next st2 heq2 =>
            injection h with h2
            subst h2
            rw [finalizeSource_vmem]
            have hmv : st2.vmem = st.vmem :=
              (copyLoop_dbEq_ok heq2).1.trans (by split <;> rfl)
            refine prop_of_ite (fun v => v = st.vmem ∨
              (v = package_mark_published st.vmem dsc.pkg dsc.version ∧
               vmemBlocksSource st.vmem dsc.pkg dsc.version = false)) ?_ ?_
            · exact Or.inl hmv
            · refine Or.inr ⟨by rw [hmv], ?_⟩
              rcases Bool.eq_false_or_eq_true
                  (vmemBlocksSource st.vmem dsc.pkg dsc.version) with hb | hb
              · exact absurd hb hguard
              · exact hb
    · exact Except.noConfusion h

theorem import_binary_pool_preserved (suite comp : String) (st : ImportState)
    (debFname : String) (bs : BinStanza) (content : FileContent)
    (p : String) (c : FileContent) (h : alookup p st.pool = some c) :
    alookup p (outState (import_binary suite comp st debFname bs content)).pool = some c := by
  unfold import_binary
  dsimp only
  split
  · split
    · exact h
    · split
      · exact h
      · split
        · exact h
        · split
          · exact h
          · split
            · split
              · split
                · exact h
                · next heqd =>
                  have hne : ∀ q, alookup q st.pool = none → p ≠ q := by
                    intro q hq he
                    rw [he] at h
                    rw [h] at hq
                    cases hq
                  show alookup p (fsPut st.pool _ _) = some c
                  rw [alookup_fsPut_other _ _ _ _ (hne _ heqd)]
                  exact h
              · exact h
            · exact h
  · exact h

set_option maxHeartbeats 1000000 in
theorem processBinaries_not_raised (suite : String) (binS : List (String × BinStanza))
    (staged : List (String × FileContent)) (uName : String) :
    ∀ (files : List UploadFileRef) (st : ImportState),
      isRaised (processBinaries suite binS staged uName st files) = false := by
  intro files
  induction files with
  | nil => intro st; rfl
  | cons f fs ih =>
    intro st
    simp only [processBinaries]
    split
    · split
      · rfl
      · split
        · split
          · rfl
          · next st2 heq2 => exact ih st2
        · rfl
    · exact ih st

set_option maxHeartbeats 1000000 in
theorem processSourceDsc_not_raised (suite : String) (pol : NewPolicy)
    (dscS : List (String × DscStanza)) (staged : List (String × FileContent))
    (uName : String) :
    ∀ (files : List UploadFileRef) (st : ImportState) (out : ChangesOutcome),
      processSourceDsc suite pol dscS staged uName st files = Except.error out →
      isRaised out = false := by
  intro files
  induction files with
  | nil =>
    intro st out h
    exact Except.noConfusion h
  | cons f fs ih =>
    intro st out h
    simp only [processSourceDsc] at h
    split at h
    · split at h
      · injection h with h2
        subst h2
        rfl
      · split at h
        · injection h with h2
          subst h2
          rfl
        · split at h
          · injection h with h2
            subst h2
            rfl
          · exact Except.noConfusion h
    · exact ih st out h

theorem pyFind_cons_self (c : Char) (t : List Char) : pyFind c (c :: t) = some 0 := by
  simp [pyFind]

theorem pyFind_cons_ne (a c : Char) (t : List Char) (h : ¬a = c) :
    pyFind c (a :: t) = (pyFind c t).map (fun n => n + 1) := by
  simp [pyFind, h]

theorem pyFind_eq_none (c : Char) (l : List Char) (h : c ∉ l) : pyFind c l = none := by
  induction l with
  | nil => rfl
  | cons a t ih =>
    have hne : ¬a = c := fun he => h (by rw [he]; exact List.mem_cons_self c t)
    have hnt : c ∉ t := fun hm => h (List.mem_cons_of_mem a hm)
    rw [pyFind_cons_ne a c t hne, ih hnt]
    rfl

theorem pyFind_append_not_mem (c : Char) (l1 l2 : List Char) (h : c ∉ l1) :
    pyFind c (l1 ++ l2) = (pyFind c l2).map (fun n => n + l1.length) := by
  induction l1 with
  | nil =>
    rw [List.nil_append]
    cases pyFind c l2 <;> simp
  | cons a t ih =>
    have hne : ¬a = c := fun he => h (by rw [he]; exact List.mem_cons_self c t)
    have hnt : c ∉ t := fun hm => h (List.mem_cons_of_mem a hm)
    rw [List.cons_append, pyFind_cons_ne a c (t ++ l2) hne, ih hnt]
    cases pyFind c l2 with
    | none => rfl
    | some n =>
      show some (n + t.length + 1) = some (n + (t.length + 1))
      have harith : n + t.length + 1 = n + (t.length + 1) := by omega
      rw [harith]

theorem take_len_append {α : Type} (l1 l2 : List α) : (l1 ++ l2).take l1.length = l1 := by
  induction l1 with
  | nil => simp
  | cons a t ih => simp [ih]

theorem take_len_add_append {α : Type} (l1 l2 : List α) (n : Nat) :
    (l1 ++ l2).take (l1.length + n) = l1 ++ l2.take n := by
  induction l1 with
  | nil => simp
  | cons a t ih =>
    rw [List.cons_append, List.length_cons]
    have : t.length + 1 + n = (t.length + n) + 1 := by omega
    rw [this, List.take_succ_cons, ih, List.cons_append]

theorem drop_len_append {α : Type} (l1 l2 : List α) : (l1 ++ l2).drop l1.length = l2 := by
  induction l1 with
  | nil => simp
  | cons a t ih => simp [ih]

theorem binSource_paren_form (name ver bn bv : List Char)
    (h1 : '(' ∉ name) (h2 : ')' ∉ name) (h3 : pyStrip name = name)
    (_h4 : '(' ∉ ver) (h5 : ')' ∉ ver) (h6 : pyStrip ver = ver) :
    binSourceFieldImport (some ((name ++ [' ', '(']) ++ (ver ++ [')']))) bn bv =
      some (name, ver) := by
  have hassoc : (name ++ [' ', '(']) ++ (ver ++ [')']) =
      name ++ (' ' :: '(' :: (ver ++ [')'])) := by simp
  have hne : (name ++ [' ', '(']) ++ (ver ++ [')']) ≠ [] := by
    rw [hassoc]
    intro hc
    cases name <;> simp at hc
  have hfo : pyFind '(' ((name ++ [' ', '(']) ++ (ver ++ [')'])) =
      some (name.length + 1) := by
    rw [hassoc, pyFind_append_not_mem '(' name _ h1,
      pyFind_cons_ne ' ' '(' _ (by decide), pyFind_cons_self]
    show some (0 + 1 + name.length) = some (name.length + 1)
    have harith : 0 + 1 + name.length = name.length + 1 := by omega
    rw [harith]
  have hL1 : ')' ∉ name ++ [' ', '('] := by
    intro hm
    rcases List.mem_append.mp hm with hmn | hmr
    · exact h2 hmn
    · simp at hmr
  have hfc : pyFind ')' ((name ++ [' ', '(']) ++ (ver ++ [')'])) =
      some (ver.length + (name ++ [' ', '(']).length) := by
    rw [pyFind_append_not_mem ')' _ _ hL1, pyFind_append_not_mem ')' ver _ h5,
      pyFind_cons_self]
    show some (0 + ver.length + (name ++ [' ', '(']).length) = _
    have harith : 0 + ver.length = ver.length := by omega
    rw [harith]
  have hslice1 : pySliceTo ((name ++ [' ', '(']) ++ (ver ++ [')']))
      (((name.length + 1 : Nat) : Int) - 1) = name := by
    have hj : ((name.length + 1 : Nat) : Int) - 1 = ((name.length : Nat) : Int) := by
      omega
    rw [hj]
    unfold pySliceTo
    rw [if_neg (by omega)]
    rw [hassoc]
    have htn : ((name.length : Nat) : Int).toNat = name.length := by omega
    rw [htn, take_len_append]
  have hslice2 : pySlice ((name ++ [' ', '(']) ++ (ver ++ [')']))
      (name.length + 1 + 1) (ver.length + (name ++ [' ', '(']).length) = ver := by
    unfold pySlice
    have hlen1 : (name ++ [' ', '(']).length = name.length + 2 := by simp
    have hval : ver.length + (name ++ [' ', '(']).length =
        (name ++ [' ', '(']).length + ver.length := by omega
    rw [hval, take_len_add_append, take_len_append]
    have hstep : name.length + 1 + 1 = (name ++ [' ', '(']).length := by
      rw [hlen1]
    rw [hstep, drop_len_append]
  unfold binSourceFieldImport
  dsimp only [Option.getD]
  rw [if_neg hne, hfo]
  dsimp only
  rw [hfc]
  dsimp only
  rw [hslice1, h3, hslice2, h6]

theorem binSource_bare_form (s bn bv : List Char) (h1 : '(' ∉ s) (h2 : s ≠ []) :
    binSourceFieldImport (some s) bn bv = some (s, bv) := by
  unfold binSourceFieldImport
  dsimp only [Option.getD]
  rw [if_neg h2, pyFind_eq_none '(' s h1]

/- ### Claims C9 and C10 -/

/-- C10: The two parsers of the binary control stanza's `Source` field —
`RepositoryReader._read_binary_packages_from_tf` (reporeader.py 517-526)
and `PackageImporter.import_binary` (pkgimport.py 352-361) — are the same
function; an absent or empty `Source` yields the binary's own
(name, version); a value of the form `name (version)` yields
(name, version); a bare name yields (name, binary version). -/
theorem c10_binary_source_parsers_equivalent :
    (binSourceFieldReader = binSourceFieldImport) ∧
    (∀ bn bv : List Char,
       binSourceFieldImport none bn bv = some (bn, bv) ∧
       binSourceFieldImport (some []) bn bv = some (bn, bv)) ∧
    (∀ name ver bn bv : List Char,
       '(' ∉ name → ')' ∉ name → pyStrip name = name →
       '(' ∉ ver → ')' ∉ ver → pyStrip ver = ver →
       binSourceFieldImport (some ((name ++ [' ', '(']) ++ (ver ++ [')']))) bn bv =
         some (name, ver)) ∧
    (∀ s bn bv : List Char, '(' ∉ s → s ≠ [] →
       binSourceFieldImport (some s) bn bv = some (s, bv)) := by
  refine ⟨rfl, ?_, ?_, ?_⟩
  · intro bn bv
    exact ⟨rfl, rfl⟩
  · intro name ver bn bv h1 h2 h3 h4 h5 h6
    exact binSource_paren_form name ver bn bv h1 h2 h3 h4 h5 h6
  · intro s bn bv h1 h2
    exact binSource_bare_form s bn bv h1 h2

/-- Witness for C10 at concrete inputs: `Source: bash (5.1-2)` and a bare
`Source: bash`. -/
theorem c10_binary_source_parsers_equivalent_witness :
    binSourceFieldImport
        (some (("bash".data ++ [' ', '(']) ++ ("5.1-2".data ++ [')'])))
        "bash-doc".data "5.1-2+b1".data =
      some ("bash".data, "5.1-2".data) ∧
    binSourceFieldImport (some "bash".data) "bash-doc".data "5.1-2+b1".data =
      some ("bash".data, "5.1-2+b1".data) :=
  ⟨c10_binary_source_parsers_equivalent.2.2.1 "bash".data "5.1-2".data
      "bash-doc".data "5.1-2+b1".data (by decide) (by decide) (by decide)
      (by decide) (by decide) (by decide),
   c10_binary_source_parsers_equivalent.2.2.2 "bash".data "bash-doc".data
      "5.1-2+b1".data (by decide) (by decide)⟩

/-- C9: When listing binary packages from a Packages index, an `arch:all`
stanza is in the result exactly when the requested architecture is the
pseudo-architecture `all`; a stanza whose architecture disagrees with the
requested one (neither side being `all`) is kept and flagged with the
warning diagnostic, not rejected. -/
theorem c9_binary_index_architecture_filter (repoName tfFname reqArch : String) :
    ∀ (stanzas : List PkgStanza),
      (∀ e ∈ stanzas, e.pkg ≠ "" ∧ e.version ≠ "") →
      ∃ ps ws, readBinaryPackages repoName tfFname reqArch stanzas = Except.ok (ps, ws) ∧
        (∀ e ∈ stanzas, e.arch = "all" → (e ∈ ps ↔ reqArch = "all")) ∧
        (∀ e ∈ stanzas, e.arch ≠ "all" → reqArch ≠ "all" → e.arch ≠ reqArch →
          e ∈ ps ∧ archWarnMsg repoName e reqArch ∈ ws) ∧
        (∀ e ∈ ps, e ∈ stanzas) := by
  intro stanzas
  induction stanzas with
  | nil =>
    intro _
    exact ⟨[], [], rfl, by simp, by simp, by simp⟩
  | cons e rest ih =>
    intro hwf
    have hwf0 : ¬(e.pkg = "" ∨ e.version = "") := by
      rcases hwf e (List.mem_cons_self e rest) with ⟨hp, hv⟩
      rintro (hc | hc)
      · exact hp hc
      · exact hv hc
    rcases ih (fun g hg => hwf g (List.mem_cons_of_mem e hg)) with
      ⟨ps, ws, hok, hall, hmis, hsub⟩
    by_cases hall1 : e.arch = "all"
    · by_cases hreq : reqArch = "all"
      · -- requested all, stanza all: kept without warning
        have heq : readBinaryPackages repoName tfFname reqArch (e :: rest) =
            Except.ok (e :: ps, ws) := by
          unfold readBinaryPackages
          rw [if_neg hwf0, if_neg (fun hc => hc.1 hreq),
            if_neg (show ¬e.arch ≠ reqArch from fun hc => hc (hall1.trans hreq.symm)),
            hok]
        refine ⟨e :: ps, ws, heq, ?_, ?_, ?_⟩
        · intro g hg hga
          constructor
          · intro _
            exact hreq
          · intro _
            rcases List.mem_cons.mp hg with hge | hgr
            · rw [hge]; exact List.mem_cons_self e ps
            · exact List.mem_cons_of_mem e ((hall g hgr hga).mpr hreq)
        · intro g hg hga hreq' _
          exact absurd hreq hreq'
        · intro g hg
          rcases List.mem_cons.mp hg with hge | hgp
          · rw [hge]; exact List.mem_cons_self e rest
          · exact List.mem_cons_of_mem e (hsub g hgp)
      · -- requested not all, stanza all: skipped
        have heq : readBinaryPackages repoName tfFname reqArch (e :: rest) =
            Except.ok (ps, ws) := by
          unfold readBinaryPackages
          rw [if_neg hwf0, if_pos ⟨hreq, hall1⟩, hok]
        refine ⟨ps, ws, heq, ?_, ?_, ?_⟩
        · intro g hg hga
          constructor
          · intro hgp
            exact ((hall g (hsub g hgp) hga).mp hgp)
          · intro hr
            exact absurd hr hreq
        · intro g hg hga hreq' harch'
          rcases List.mem_cons.mp hg with hge | hgr
          · exact absurd (hge ▸ hall1) hga
          · exact hmis g hgr hga hreq' harch'
        · intro g hgp
          exact List.mem_cons_of_mem e (hsub g hgp)
    · by_cases harch : e.arch = reqArch
      · -- architectures agree: kept without warning
        have heq : readBinaryPackages repoName tfFname reqArch (e :: rest) =
            Except.ok (e :: ps, ws) := by
          unfold readBinaryPackages
          rw [if_neg hwf0, if_neg (fun hc => hall1 hc.2),
            if_neg (show ¬e.arch ≠ reqArch from fun hc => hc harch), hok]
        refine ⟨e :: ps, ws, heq, ?_, ?_, ?_⟩
        · intro g hg hga
          constructor
          · intro hgp
            rcases List.mem_cons.mp hgp with hge | hgps
            · exact absurd (hge ▸ hga : e.arch = "all") hall1
            · rcases List.mem_cons.mp hg with hge2 | hgr
              · exact absurd (hge2 ▸ hga : e.arch = "all") hall1
              · exact (hall g hgr hga).mp hgps
          · intro hr
            rcases List.mem_cons.mp hg with hge | hgr
            · exact absurd (hge ▸ hga : e.arch = "all") hall1
            · exact List.mem_cons_of_mem e ((hall g hgr hga).mpr hr)
        · intro g hg hga hreq' harch'
          rcases List.mem_cons.mp hg with hge | hgr
          · exact absurd (hge ▸ harch : g.arch = reqArch) harch'
          · rcases hmis g hgr hga hreq' harch' with ⟨h1', h2'⟩
            exact ⟨List.mem_cons_of_mem e h1', h2'⟩
        · intro g hgp
          rcases List.mem_cons.mp hgp with hge | hgps
          · rw [hge]; exact List.mem_cons_self e rest
          · exact List.mem_cons_of_mem e (hsub g hgps)
      · by_cases hreq : reqArch = "all"
        · -- requested all, stanza neither all nor matching: skipped
          have heq : readBinaryPackages repoName tfFname reqArch (e :: rest) =
              Except.ok (ps, ws) := by
            unfold readBinaryPackages
            rw [if_neg hwf0, if_neg (fun hc => hall1 hc.2), if_pos harch,
              if_pos ⟨hreq, hall1⟩, hok]
          refine ⟨ps, ws, heq, ?_, ?_, ?_⟩
          · intro g hg hga
            rcases List.mem_cons.mp hg with hge | hgr
            · exact absurd (hge ▸ hga : e.arch = "all") hall1
            · exact hall g hgr hga
          · intro g hg hga hreq' harch'
            exact absurd hreq hreq'
          · intro g hgp
            exact List.mem_cons_of_mem e (hsub g hgp)
        · -- genuine mismatch: kept and flagged
          have heq : readBinaryPackages repoName tfFname reqArch (e :: rest) =
              Except.ok (e :: ps, archWarnMsg repoName e reqArch :: ws) := by
            unfold readBinaryPackages
            rw [if_neg hwf0, if_neg (fun hc => hall1 hc.2), if_pos harch,
              if_neg (fun hc => hreq hc.1), hok]
          refine ⟨e :: ps, archWarnMsg repoName e reqArch :: ws, heq, ?_, ?_, ?_⟩
          · intro g hg hga
            constructor
            · intro hgp
              rcases List.mem_cons.mp hgp with hge | hgps
              · exact absurd (hge ▸ hga : e.arch = "all") hall1
              · rcases List.mem_cons.mp hg with hge2 | hgr
                · exact absurd (hge2 ▸ hga : e.arch = "all") hall1
                · exact (hall g hgr hga).mp hgps
            · intro hr
              exact absurd hr hreq
          · intro g hg hga hreq' harch'
            rcases List.mem_cons.mp hg with hge | hgr
            · constructor
              · rw [hge]; exact List.mem_cons_self e ps
              · rw [hge]; exact List.mem_cons_self _ ws
            · rcases hmis g hgr hga hreq' harch' with ⟨h1', h2'⟩
              exact ⟨List.mem_cons_of_mem e h1', List.mem_cons_of_mem _ h2'⟩
          · intro g hgp
            rcases List.mem_cons.mp hgp with hge | hgps
            · rw [hge]; exact List.mem_cons_self e rest
            · exact List.mem_cons_of_mem e (hsub g hgps)

/-- Witness for C9: one arch:all stanza, one mismatched-arch stanza, one
matching stanza, read for architecture amd64. -/
theorem c9_binary_index_architecture_filter_witness :
    ∃ ps ws, readBinaryPackages "origin" "Packages" "amd64"
        [⟨"pkg-a", "1.0", "all"⟩, ⟨"pkg-b", "2.0", "i386"⟩, ⟨"pkg-c", "3.0", "amd64"⟩] =
        Except.ok (ps, ws) ∧
      (∀ e ∈ ([⟨"pkg-a", "1.0", "all"⟩, ⟨"pkg-b", "2.0", "i386"⟩,
          ⟨"pkg-c", "3.0", "amd64"⟩] : List PkgStanza), e.arch = "all" →
        (e ∈ ps ↔ "amd64" = "all")) ∧
      (∀ e ∈ ([⟨"pkg-a", "1.0", "all"⟩, ⟨"pkg-b", "2.0", "i386"⟩,
          ⟨"pkg-c", "3.0", "amd64"⟩] : List PkgStanza), e.arch ≠ "all" →
        "amd64" ≠ "all" → e.arch ≠ "amd64" →
        e ∈ ps ∧ archWarnMsg "origin" e "amd64" ∈ ws) ∧
      (∀ e ∈ ps, e ∈ ([⟨"pkg-a", "1.0", "all"⟩, ⟨"pkg-b", "2.0", "i386"⟩,
          ⟨"pkg-c", "3.0", "amd64"⟩] : List PkgStanza)) :=
  c9_binary_index_architecture_filter "origin" "Packages" "amd64"
    [⟨"pkg-a", "1.0", "all"⟩, ⟨"pkg-b", "2.0", "i386"⟩, ⟨"pkg-c", "3.0", "amd64"⟩]
    (by decide)

/- ### Claims C4 and C5 -/

/-- One more step lemma for the verification loop: a failing check raises
with the mismatch diagnostic. -/
theorem verifyLoop_cons_false (f : AFile) (e : HashEntry) (t : List HashEntry) (n : Nat)
    (he : hashMatches f e = Except.ok false) :
    verifyLoop f (e :: t) n =
      Except.error (ImpErr.checksumMismatch e.htype f.fname e.hvalue) := by
  conv_lhs => unfold verifyLoop
  rw [he]

/-- Substring test on the rendered diagnostics. -/
def strContainsAux (needle : List Char) : List Char → Bool
  | [] => needle.isEmpty
  | a :: t => needle.isPrefixOf (a :: t) || strContainsAux needle t

/-- Whether `needle` occurs contiguously inside `hay`. -/
def strContains (hay needle : String) : Bool :=
  strContainsAux needle.data hay.data

/-- C4 (amended): verification performing fewer than 4 checks never
passes (all-passing short lists raise the insufficient-hashes error); any
single mismatching check is fatal, with a diagnostic naming the algorithm
that failed and the digest computed from the file (which the message
labels "expected"); the declared digest is not part of the diagnostic. -/
theorem c4_verifier_minimum_checks_and_diagnostic :
    (∀ (f : AFile) (hs : List HashEntry), hs.length < 4 →
       verifyHashesList f hs ≠ Except.ok ()) ∧
    (∀ (f : AFile) (pre : List HashEntry) (h : HashEntry) (post : List HashEntry),
       (∀ h2 ∈ pre, hashMatches f h2 = Except.ok true) →
       hashMatches f h = Except.ok false →
       verifyHashesList f (pre ++ h :: post) =
         Except.error (ImpErr.checksumMismatch h.htype f.fname h.hvalue)) ∧
    (∀ t fn hv : String, (ImpErr.checksumMismatch t fn hv).msg =
       t ++ " checksum validation of \"" ++ fn ++ "\" failed (expected " ++ hv ++ ").") := by
  refine ⟨?_, ?_, ?_⟩
  · intro f hs hlen hok
    unfold verifyHashesList at hok
    cases hv : verifyLoop f hs 0 with
    | error e => rw [hv] at hok; exact Except.noConfusion hok
    | ok n =>
      rw [hv] at hok
      dsimp only at hok
      have hge : ¬n < 4 := by
        intro hlt
        rw [if_pos hlt] at hok
        exact Except.noConfusion hok
      have hn := verifyLoop_ok_count f hs 0 n hv
      omega
  · intro f pre h post hpre hh
    unfold verifyHashesList
    rw [verifyLoop_skip_passing f pre (h :: post) 0 hpre,
      verifyLoop_cons_false f h post (0 + pre.length) hh]
  · intro t fn hv
    rfl

/-- Witness for C4 at concrete inputs: a two-entry all-passing list is
rejected as insufficient, and a mismatching SHA1 entry raises the naming
diagnostic. -/
theorem c4_verifier_minimum_checks_and_diagnostic_witness :
    verifyHashesList ⟨"f", some "3", some "m", none, none, none⟩
        [⟨"MD5Sum", "m"⟩, ⟨"Checksum-FileSize", "3"⟩] ≠ Except.ok () ∧
    verifyHashesList ⟨"f", some "3", some "m", some "x", none, none⟩
        ([] ++ ⟨"SHA1", "y"⟩ :: [⟨"Checksum-FileSize", "3"⟩]) =
      Except.error (ImpErr.checksumMismatch "SHA1" "f" "y") ∧
    (ImpErr.checksumMismatch "SHA1" "f" "y").msg =
      "SHA1" ++ " checksum validation of \"" ++ "f" ++ "\" failed (expected " ++ "y" ++ ")." :=
  ⟨c4_verifier_minimum_checks_and_diagnostic.1 _ _ (by decide),
   c4_verifier_minimum_checks_and_diagnostic.2.1 _ [] ⟨"SHA1", "y"⟩
     [⟨"Checksum-FileSize", "3"⟩] (by simp) rfl,
   c4_verifier_minimum_checks_and_diagnostic.2.2 "SHA1" "f" "y"⟩

/-- C4 counterexample to the claim as stated: the mismatch diagnostic
contains the computed digest (printed after "expected") but not the
declared digest, so it does not give both digest values. -/
theorem c4_diagnostic_lacks_declared_digest_counterexample :
    verify_hashes ⟨"pkg.dsc", some "10", some "aaaa1111", some "s1", some "s2", some "s5"⟩
        ⟨"bbbb2222", "s1", "s2", "s5", "10"⟩ =
      Except.error (ImpErr.checksumMismatch "MD5Sum" "pkg.dsc" "bbbb2222") ∧
    strContains (ImpErr.checksumMismatch "MD5Sum" "pkg.dsc" "bbbb2222").msg "bbbb2222" = true ∧
    strContains (ImpErr.checksumMismatch "MD5Sum" "pkg.dsc" "bbbb2222").msg "aaaa1111" = false :=
  ⟨rfl, rfl, rfl⟩

/-- The state, content and stanza for the SHA512-omission scenario: all
declared MD5/SHA1/SHA256 digests and sizes match the staged file, the
optional `Checksums-Sha512` section is absent. -/
def c5State : ImportState := ⟨[], [], [], [], [], ["main"], [], [], [], []⟩

/-- The staged source file's content for the C5 scenario. -/
def c5Content : FileContent := ⟨"m1", "h1", "h2", "h5", "100"⟩

/-- A `.dsc` stanza without a `Checksums-Sha512` section whose other
declared checksums match `c5Content`. -/
def c5Dsc : DscStanza :=
  ⟨"foo", "1.0", "3.0 (quilt)", ["any"], "Jane Doe <jane@example.org>", [], [], [], [],
   [], [], [⟨"m1", "100", "foo_1.0.dsc"⟩], [⟨"h1", "100", "foo_1.0.dsc"⟩],
   [⟨"h2", "100", "foo_1.0.dsc"⟩], none, []⟩

/-- C5 (code bug): a source import whose `.dsc` declares matching MD5,
SHA1 and SHA256 checksums and sizes but omits the optional SHA512 section
fails with a SHA512 checksum error: `_verify_hashes` compares the unset
(`None`) declared SHA512 against the computed digest, and `None == value`
is false in Python. -/
theorem c5_sha512_omission_fails_verification :
    import_source "unstable" NewPolicy.default "main" c5State c5Dsc
        [("foo_1.0.dsc", c5Content)] =
      Except.error (ImpErr.checksumMismatch "SHA512" "foo_1.0.dsc" "h5", c5State) := rfl

/- ### Claims C1 and C2 -/

/-- C1 (amended): across a successful `import_source`, every Version
Ledger entry either is untouched or belongs to the imported package and is
set to the proposed version, which the guard guarantees is not smaller
than the previously recorded one.  (`import_binary`, by contrast, has no
guard: see the counterexample.) -/
theorem c1_source_ledger_monotonic (suite : String) (pol : NewPolicy) (comp : String)
    (st : ImportState) (dsc : DscStanza) (staged : List (String × FileContent))
    (st' : ImportState)
    (h : import_source suite pol comp st dsc staged = Except.ok st') :
    ∀ p, alookup p st'.vmem = alookup p st.vmem ∨
      (p = dsc.pkg ∧ alookup p st'.vmem = some dsc.version ∧
        ∀ hv, alookup p st.vmem = some hv →
          debVersionCompare hv dsc.version ≠ Ordering.gt) := by
  intro p
  rcases import_source_ok_vmem suite pol comp st dsc staged st' h with hv | ⟨hv, hguard⟩
  · left
    rw [hv]
  · by_cases hp : p = dsc.pkg
    · right
      refine ⟨hp, ?_, ?_⟩
      · rw [hv, hp]
        exact alookup_mark_published_same st.vmem dsc.pkg dsc.version
      · intro hvv hl hgt
        unfold vmemBlocksSource at hguard
        rw [hp] at hl
        rw [hl] at hguard
        simp [hgt] at hguard
    · left
      rw [hv, alookup_mark_published_other st.vmem dsc.pkg p dsc.version hp]

/-- A state, stanza and staged file for which `import_source` succeeds
(fresh package, override-free, all five hash checks pass). -/
def srcOkState : ImportState := ⟨[], [], [], [], [], ["main"], [], [], [], []⟩

/-- Staged file content matching the declared checksums of `srcOkDsc`. -/
def srcOkContent : FileContent := ⟨"m", "h1", "h2", "h5", "7"⟩

/-- A well-formed `.dsc` stanza for package foo/1.0 with all four
checksum sections declared. -/
def srcOkDsc : DscStanza :=
  ⟨"foo", "1.0", "3.0 (quilt)", ["any"], "Jane Doe <jane@example.org>", [], [], [], [],
   [], [], [⟨"m", "7", "foo_1.0.dsc"⟩], [⟨"h1", "7", "foo_1.0.dsc"⟩],
   [⟨"h2", "7", "foo_1.0.dsc"⟩], some [⟨"h5", "7", "foo_1.0.dsc"⟩], []⟩

/-- The run of `import_source` on the `srcOk` scenario. -/
def srcOkRun : Except (ImpErr × ImportState) ImportState :=
  import_source "unstable" NewPolicy.default "main" srcOkState srcOkDsc
    [("foo_1.0.dsc", srcOkContent)]

/-- The state after the successful `srcOk` import. -/
def srcOkAfter : ImportState := outState srcOkRun

/-- Witness for C1: the `srcOk` import succeeds and the amended theorem
instantiates at it. -/
theorem c1_source_ledger_monotonic_witness :
    srcOkRun = Except.ok srcOkAfter ∧
    (alookup "foo" srcOkAfter.vmem = alookup "foo" srcOkState.vmem ∨
      ("foo" = srcOkDsc.pkg ∧ alookup "foo" srcOkAfter.vmem = some srcOkDsc.version ∧
        ∀ hv, alookup "foo" srcOkState.vmem = some hv →
          debVersionCompare hv srcOkDsc.version ≠ Ordering.gt)) :=
  ⟨rfl,
   c1_source_ledger_monotonic "unstable" NewPolicy.default "main" srcOkState srcOkDsc
     [("foo_1.0.dsc", srcOkContent)] srcOkAfter rfl "foo"⟩

/-- The published source package owning the binary in the C1
counterexample. -/
def c1Source : SrcPkg :=
  ⟨"demo", "1.0", "main", ["unstable"], [], ["demo"], "pool/d/demo", "3.0", ["amd64"],
   "Jane Doe <jane@example.org>", [], [], [], [], [], []⟩

/-- A state whose Version Ledger already records demo/2.0 while demo/1.0
is published as a source in the suite with an override present. -/
def c1State : ImportState :=
  ⟨[("demo", "2.0")], [c1Source], [], [], [("unstable", "demo")], ["main"], ["amd64"],
   [], [], []⟩

/-- The uploaded binary's content for the C1 counterexample. -/
def c1Content : FileContent := ⟨"m", "s1", "s2", "s5", "42"⟩

/-- The control stanza of binary demo/1.0 (checksums matching
`c1Content`). -/
def c1Stanza : BinStanza :=
  ⟨"demo", "1.0", "amd64", "Jane Doe <jane@example.org>", "100", none, "42", "m", "s1",
   "s2", some "s5", "demo package", []⟩

/-- The `import_binary` run of the C1 counterexample. -/
def c1Run : Except (ImpErr × ImportState) ImportState :=
  import_binary "unstable" "main" c1State "demo_1.0_amd64.deb" c1Stanza c1Content

/-- The state after the C1 counterexample run. -/
def c1After : ImportState := outState c1Run

/-- C1 counterexample: a successful `import_binary` lowers the recorded
highest version for "demo" from 2.0 to 1.0 — `import_binary` calls
`package_mark_published` without any version-memory guard, so the ledger
is not non-decreasing over successful imports of both kinds. -/
theorem c1_binary_import_lowers_ledger_counterexample :
    alookup "demo" c1State.vmem = some "2.0" ∧
    c1Run = Except.ok c1After ∧
    alookup "demo" c1After.vmem = some "1.0" ∧
    debVersionCompare "1.0" "2.0" = Ordering.lt :=
  ⟨rfl, rfl, rfl, rfl⟩

/-- C2 (amended): `import_source` rejects with the version-regression
error, leaving the state untouched, exactly when the recorded version
compares strictly greater than the proposed one; a recorded version that
is merely equal is rejected earlier, by `process_changes`' ≥ comparison,
not by `import_source` itself (see the counterexample). -/
theorem c2_version_regression_guard :
    (∀ (suite : String) (pol : NewPolicy) (comp : String) (st : ImportState)
       (dsc : DscStanza) (staged : List (String × FileContent)) (hv : String),
       alookup dsc.pkg st.vmem = some hv →
       debVersionCompare hv dsc.version = Ordering.gt →
       import_source suite pol comp st dsc staged =
         Except.error (ImpErr.versionRegression dsc.pkg, st)) ∧
    (∀ (repoName : String) (uploaders : List Uploader) (cfg : List (String × NewPolicy))
       (ds : List (String × DscStanza)) (bss : List (String × BinStanza))
       (staged : List (String × FileContent)) (st : ImportState) (ch : ChangesData)
       (u : Uploader) (d : String) (pol : NewPolicy) (hv : String),
       ch.validSignature = true →
       uploaders.find? (fun v => v.fingerprints.contains ch.fingerprint) = some u →
       ch.weakSignature = false →
       ch.distributions = [d] →
       ¬(ch.sourceful ∧ ¬u.allowSourceUploads = true) →
       alookup d cfg = some pol →
       alookup ch.sourceName st.vmem = some hv →
       debVersionCompare hv ch.version ≠ Ordering.lt →
       process_changes repoName uploaders cfg ds bss staged st ch =
         ChangesOutcome.rejected u.name
           ("We have already seen higher or equal version of source package \"" ++
            ch.sourceName ++ "\" in repository \"" ++ repoName ++ "\" before.")) := by
  constructor
  · intro suite pol comp st dsc staged hv hl hgt
    have hb : vmemBlocksSource st.vmem dsc.pkg dsc.version = true := by
      unfold vmemBlocksSource
      rw [hl]
      simp [hgt]
    unfold import_source
    dsimp only
    rw [if_pos hb]
  · intro repoName uploaders cfg ds bss staged st ch u d pol hv hsig hfind hweak hdist
      hsrc hcfg hvm hlt
    unfold process_changes
    rw [if_pos hsig, hfind]
    dsimp only
    rw [if_neg (fun hc => Bool.false_ne_true (hweak ▸ hc))]
    rw [hdist]
    dsimp only
    rw [if_neg hsrc, hcfg]
    dsimp only
    have hb : (match alookup ch.sourceName st.vmem with
        | some hv2 => decide (debVersionCompare hv2 ch.version ≠ Ordering.lt)
        | none => false) = true := by
      rw [hvm]
      simp [hlt]
    rw [if_pos hb]

/-- A state whose Version Ledger already records a strictly higher
version for "bar". -/
def c2wState : ImportState := ⟨[("bar", "2.0")], [], [], [], [], [], [], [], [], []⟩

/-- A minimal `.dsc` stanza proposing bar/1.0. -/
def c2wDsc : DscStanza :=
  ⟨"bar", "1.0", "3.0 (quilt)", [], "Jane Doe <jane@example.org>", [], [], [], [], [],
   [], [], [], [], none, []⟩

/-- The uploader for the C2 witness. -/
def c2wUploader : Uploader := ⟨"alice", ["F"], true, true, false⟩

/-- A signed changes manifest proposing bar/1.0 for suite unstable. -/
def c2wChanges : ChangesData :=
  ⟨true, "F", false, ["unstable"], false, "bar", "1.0", Except.ok []⟩

/-- Witness for C2 at concrete inputs: the strictly-greater recorded
version 2.0 blocks bar/1.0 in `import_source` with an unchanged state, and
`process_changes` rejects it too. -/
theorem c2_version_regression_guard_witness :
    import_source "unstable" NewPolicy.default "main" c2wState c2wDsc [] =
      Except.error (ImpErr.versionRegression "bar", c2wState) ∧
    process_changes "master" [c2wUploader] [("unstable", NewPolicy.default)] [] [] []
        c2wState c2wChanges =
      ChangesOutcome.rejected "alice"
        ("We have already seen higher or equal version of source package \"" ++
         "bar" ++ "\" in repository \"" ++ "master" ++ "\" before.") :=
  ⟨c2_version_regression_guard.1 "unstable" NewPolicy.default "main" c2wState c2wDsc []
     "2.0" rfl (by decide),
   c2_version_regression_guard.2 "master" [c2wUploader]
     [("unstable", NewPolicy.default)] [] [] [] c2wState c2wChanges c2wUploader
     "unstable" NewPolicy.default "2.0" rfl rfl rfl rfl (by simp [c2wChanges])
     rfl rfl (by decide)⟩

/-- A state whose Version Ledger records exactly foo/1.0. -/
def c2State : ImportState := ⟨[("foo", "1.0")], [], [], [], [], ["main"], [], [], [], []⟩

/-- The `import_source` run proposing foo/1.0 against a ledger already
recording foo/1.0. -/
def c2Run : Except (ImpErr × ImportState) ImportState :=
  import_source "unstable" NewPolicy.default "main" c2State srcOkDsc
    [("foo_1.0.dsc", srcOkContent)]

/-- C2 counterexample to the claim as stated: with the recorded version
equal to the proposed one (1.0 = 1.0), `import_source` succeeds — the
guard in `import_source` uses a strict comparison, so "greater than or
equal" is wrong for the importer itself. -/
theorem c2_equal_version_import_succeeds_counterexample :
    alookup srcOkDsc.pkg c2State.vmem = some "1.0" ∧
    srcOkDsc.version = "1.0" ∧
    debVersionCompare "1.0" "1.0" = Ordering.eq ∧
    c2Run = Except.ok (outState c2Run) :=
  ⟨rfl, rfl, rfl, rfl⟩

/- ### Claims C3, C6, C7 -/

/-- C3: pool files are never overwritten.  (i)/(ii): any pre-existing pool
entry survives every source or binary import unchanged, in success and in
failure states alike.  (iii): the source copy loop raises the
destination-exists error whenever one of its pool targets is occupied,
with the occupied file intact in the failure state.  (iv): a binary import
that reaches the pool-placement step with an occupied destination fails
with the destination-exists error and mutates nothing. -/
theorem c3_pool_destination_never_overwritten :
    (∀ (suite : String) (pol : NewPolicy) (comp : String) (st : ImportState)
       (dsc : DscStanza) (staged : List (String × FileContent)) (p : String)
       (c : FileContent), alookup p st.pool = some c →
       alookup p (outState (import_source suite pol comp st dsc staged)).pool = some c) ∧
    (∀ (suite comp : String) (st : ImportState) (debFname : String) (bs : BinStanza)
       (content : FileContent) (p : String) (c : FileContent),
       alookup p st.pool = some c →
       alookup p (outState (import_binary suite comp st debFname bs content)).pool = some c) ∧
    (∀ (staged : List (String × FileContent)) (files : List AFile) (st : ImportState)
       (p : String) (c : FileContent),
       alookup p st.pool = some c →
       (∃ f ∈ files, f.fname = p) →
       (∀ f ∈ files, (alookup (basename f.fname) staged).isSome = true) →
       ∃ fn stE, copyLoop false staged st files =
           Except.error (ImpErr.destinationExists fn, stE) ∧
         alookup p stE.pool = some c) ∧
    (∀ (suite comp : String) (st : ImportState) (debFname : String) (bs : BinStanza)
       (content : FileContent) (snL svL : List Char) (src : SrcPkg) (c : FileContent),
       bs.arch ∈ st.archs →
       binSourceFieldImport (bs.source.map String.data) bs.pkg.data bs.version.data =
         some (snL, svL) →
       findPublishedSource suite (String.mk snL) (String.mk svL) st.sources = some src →
       verify_hashes (binAFile debFname src.name bs) content = Except.ok () →
       (suite, bs.pkg) ∈ st.overrides →
       comp ∈ st.components →
       alookup (binPoolFname debFname src.name bs) st.pool = some c →
       import_binary suite comp st debFname bs content =
         Except.error (ImpErr.destinationExists (binPoolFname debFname src.name bs), st)) := by
  refine ⟨?_, ?_, ?_, ?_⟩
  · intro suite pol comp st dsc staged p c h
    exact import_source_pool_preserved suite pol comp st dsc staged p c h
  · intro suite comp st debFname bs content p c h
    exact import_binary_pool_preserved suite comp st debFname bs content p c h
  · intro staged files st p c h hex hstaged
    exact copyLoop_occupied staged files st p c h hex hstaged
  · intro suite comp st debFname bs content snL svL src c harch hparse hpub hver hov
      hcomp hocc
    unfold import_binary
    dsimp only
    rw [if_pos harch, hparse]
    dsimp only
    rw [hpub]
    dsimp only
    rw [hver]
    dsimp only
    rw [if_neg Bool.false_ne_true, if_pos hov, if_pos hcomp, hocc]

/-- The pre-existing pool content in the C3 witness scenario. -/
def c3OldContent : FileContent := ⟨"old1", "old2", "old3", "old4", "9"⟩

/-- The C1 state with the binary's pool destination already occupied. -/
def c3State : ImportState :=
  ⟨[("demo", "2.0")], [c1Source], [], [], [("unstable", "demo")], ["main"], ["amd64"],
   [("pool/d/demo/demo_1.0_amd64.deb", c3OldContent)], [], []⟩

/-- Witness for C3: with the destination occupied, the same binary upload
that succeeded in the C1 scenario now fails with the destination-exists
error and the occupied pool file is untouched; the copy-loop conjunct is
instantiated on a one-file list. -/
theorem c3_pool_destination_never_overwritten_witness :
    import_binary "unstable" "main" c3State "demo_1.0_amd64.deb" c1Stanza c1Content =
      Except.error
        (ImpErr.destinationExists (binPoolFname "demo_1.0_amd64.deb" "demo" c1Stanza),
         c3State) ∧
    alookup "pool/d/demo/demo_1.0_amd64.deb"
        (outState (import_binary "unstable" "main" c3State "demo_1.0_amd64.deb"
          c1Stanza c1Content)).pool = some c3OldContent ∧
    (∃ fn stE, copyLoop false [("a.dsc", c1Content), ("demo_1.0_amd64.deb", c3OldContent)] c3State
        [⟨"pool/d/demo/a.dsc", some "42", some "m", some "s1", some "s2", some "s5"⟩,
         ⟨"pool/d/demo/demo_1.0_amd64.deb", some "42", some "m", some "s1", some "s2",
          some "s5"⟩] =
        Except.error (ImpErr.destinationExists fn, stE) ∧
      alookup "pool/d/demo/demo_1.0_amd64.deb" stE.pool = some c3OldContent) :=
  ⟨c3_pool_destination_never_overwritten.2.2.2 "unstable" "main" c3State
     "demo_1.0_amd64.deb" c1Stanza c1Content "demo".data "1.0".data c1Source
     c3OldContent (by decide) rfl rfl rfl (by decide) (by decide) rfl,
   c3_pool_destination_never_overwritten.2.1 "unstable" "main" c3State
     "demo_1.0_amd64.deb" c1Stanza c1Content "pool/d/demo/demo_1.0_amd64.deb"
     c3OldContent rfl,
   c3_pool_destination_never_overwritten.2.2.1 [("a.dsc", c1Content), ("demo_1.0_amd64.deb", c3OldContent)]
     [⟨"pool/d/demo/a.dsc", some "42", some "m", some "s1", some "s2", some "s5"⟩,
      ⟨"pool/d/demo/demo_1.0_amd64.deb", some "42", some "m", some "s1", some "s2",
       some "s5"⟩] c3State "pool/d/demo/demo_1.0_amd64.deb" c3OldContent rfl
     ⟨⟨"pool/d/demo/demo_1.0_amd64.deb", some "42", some "m", some "s1", some "s2",
       some "s5"⟩, by simp, rfl⟩ (by decide)⟩

/-- C6: a binary whose owning source is resolved only through the NEW
queue is copied into the NEW-queue directory tree and nothing else
changes: no binary row, no file row, no ledger update, no pending-changes
flag, no pool write. -/
theorem c6_new_queue_binary_registers_nothing
    (suite comp : String) (st : ImportState) (debFname : String) (bs : BinStanza)
    (content : FileContent) (snL svL : List Char) (e : NQEntry)
    (harch : bs.arch ∈ st.archs)
    (hparse : binSourceFieldImport (bs.source.map String.data) bs.pkg.data
      bs.version.data = some (snL, svL))
    (hpub : findPublishedSource suite (String.mk snL) (String.mk svL) st.sources = none)
    (hnq : findNQ suite (String.mk snL) (String.mk svL) st.nqueue = some e)
    (hver : verify_hashes (binAFile debFname e.package.name bs) content = Except.ok ()) :
    import_binary suite comp st debFname bs content =
      Except.ok { st with newqFiles := fsPut st.newqFiles (binPoolFname debFname e.package.name bs) content } := by
  unfold import_binary
  dsimp only
  rw [if_pos harch, hparse]
  dsimp only
  rw [hpub]
  dsimp only
  rw [hnq]
  dsimp only
  rw [hver]
  rfl

/-- The pending NEW-queue source package of the C6/C7 scenario. -/
def c6SrcPkg : SrcPkg :=
  ⟨"demo", "1.0", "main", [], [], ["demo"], "pool/d/demo", "3.0", ["amd64"],
   "Jane Doe <jane@example.org>", [], [], [], [], [], []⟩

/-- The NEW-queue entry holding `c6SrcPkg` for suite unstable. -/
def c6Entry : NQEntry := ⟨c6SrcPkg, "unstable"⟩

/-- A state where demo/1.0 exists only in the NEW queue. -/
def c6State : ImportState :=
  ⟨[], [], [], [c6Entry], [], ["main"], ["amd64"], [], [], []⟩

/-- The stanza of a binary demo-bin/1.0 declaring `Source: demo`. -/
def c6Stanza : BinStanza :=
  ⟨"demo-bin", "1.0", "amd64", "Jane Doe <jane@example.org>", "100", some "demo", "42",
   "m", "s1", "s2", some "s5", "demo binary", []⟩

/-- Witness for C6: the NEW-routed binary ends up in the NEW-queue tree
and the database-resident state fields are untouched. -/
theorem c6_new_queue_binary_registers_nothing_witness :
    import_binary "unstable" "main" c6State "demo-bin_1.0_amd64.deb" c6Stanza c1Content =
      Except.ok { c6State with newqFiles := fsPut c6State.newqFiles (binPoolFname "demo-bin_1.0_amd64.deb" "demo" c6Stanza) c1Content } :=
  c6_new_queue_binary_registers_nothing "unstable" "main" c6State
    "demo-bin_1.0_amd64.deb" c6Stanza c1Content "demo".data "1.0".data c6Entry
    (by decide) rfl rfl rfl rfl

/-- C7: a binary whose resolved source matches neither a published source
in the destination suite nor a NEW-queue entry is rejected with the
orphaned-binary error before any hash verification: the outcome is the
same for every file content and every declared checksum, and the state is
returned unchanged. -/
theorem c7_orphaned_binary_always_rejected
    (suite comp : String) (st : ImportState) (debFname : String) (bs : BinStanza)
    (content : FileContent) (snL svL : List Char)
    (harch : bs.arch ∈ st.archs)
    (hparse : binSourceFieldImport (bs.source.map String.data) bs.pkg.data
      bs.version.data = some (snL, svL))
    (hpub : findPublishedSource suite (String.mk snL) (String.mk svL) st.sources = none)
    (hnq : findNQ suite (String.mk snL) (String.mk svL) st.nqueue = none) :
    import_binary suite comp st debFname bs content =
      Except.error (ImpErr.orphanedBinary bs.pkg, st) := by
  unfold import_binary
  dsimp only
  rw [if_pos harch, hparse]
  dsimp only
  rw [hpub]
  dsimp only
  rw [hnq]

/-- A state with neither published sources nor NEW-queue entries. -/
def c7State : ImportState := ⟨[], [], [], [], [], ["main"], ["amd64"], [], [], []⟩

/-- Witness for C7: the orphaned binary is rejected even though its
declared checksums do not even match the file content (the digest fields
of the stanza disagree with `c1Content`), showing the failure precedes
verification. -/
theorem c7_orphaned_binary_always_rejected_witness :
    import_binary "unstable" "main" c7State "demo-bin_1.0_amd64.deb"
        ⟨"demo-bin", "1.0", "amd64", "Jane Doe <jane@example.org>", "100", some "demo",
         "wrong", "wrong", "wrong", "wrong", none, "demo binary", []⟩ c1Content =
      Except.error (ImpErr.orphanedBinary "demo-bin", c7State) :=
  c7_orphaned_binary_always_rejected "unstable" "main" c7State
    "demo-bin_1.0_amd64.deb"
    ⟨"demo-bin", "1.0", "amd64", "Jane Doe <jane@example.org>", "100", some "demo",
     "wrong", "wrong", "wrong", "wrong", none, "demo binary", []⟩ c1Content
    "demo".data "1.0".data (by decide) rfl rfl rfl

/- ### Claim C8 -/

/-- C8 (amended): `process_changes` never raises for expected rejections —
whenever the manifest has a valid signature, some registered uploader
matches the signing fingerprint, and (when exactly one target distribution
is named) that distribution has a configured repo-suite, the call returns
a tuple instead of raising.  Raising is confined to the missing/invalid
signature, the unmatched fingerprint, and the unknown target distribution
(the `.one()` query for the repo-suite settings). -/
theorem c8_process_changes_never_raises_for_rejections
    (repoName : String) (uploaders : List Uploader) (cfg : List (String × NewPolicy))
    (ds : List (String × DscStanza)) (bss : List (String × BinStanza))
    (staged : List (String × FileContent)) (st : ImportState) (ch : ChangesData)
    (u : Uploader)
    (hsig : ch.validSignature = true)
    (hupl : uploaders.find? (fun v => v.fingerprints.contains ch.fingerprint) = some u)
    (hsuite : ∀ d, ch.distributions = [d] → ∃ pol, alookup d cfg = some pol) :
    isRaised (process_changes repoName uploaders cfg ds bss staged st ch) = false := by
  unfold process_changes
  rw [if_pos hsig, hupl]
  dsimp only
  split
  · rfl
  · cases hd : ch.distributions with
    | nil => rfl
    | cons d rest =>
      cases rest with
      | cons d2 r2 => rfl
      | nil =>
        dsimp only
        split
        · rfl
        · rcases hsuite d hd with ⟨pol, hpol⟩
          rw [hpol]
          dsimp only
          split
          · rfl
          · cases hfr : ch.filesResult with
            | error e => rfl
            | ok files =>
              dsimp only
              split
              · rfl
              · split
                · next out heq =>
                  exact processSourceDsc_not_raised _ _ _ _ _ files st out heq
                · next st1 heq =>
                  exact processBinaries_not_raised _ _ _ _ files st1

/-- The registered uploader of the C8 scenarios. -/
def c8Uploader : Uploader := ⟨"alice", ["F"], true, true, false⟩

/-- A validly signed manifest naming a distribution for which no
repo-suite is configured. -/
def c8Changes : ChangesData :=
  ⟨true, "F", false, ["nosuchsuite"], false, "foo", "1.0", Except.ok []⟩

/-- An entirely empty archive state. -/
def c8EmptyState : ImportState := ⟨[], [], [], [], [], [], [], [], [], []⟩

/-- C8 counterexample to the claim as stated: with a valid signature and a
matched uploader, a manifest naming exactly one — but unconfigured —
distribution makes `process_changes` raise (the `.one()` lookup of the
repo-suite settings), a third raise condition beyond the two the claim
allows. -/
theorem c8_unknown_distribution_raises_counterexample :
    process_changes "master" [c8Uploader] [] [] [] [] c8EmptyState c8Changes =
      ChangesOutcome.raised "No row was found when one was required" := rfl

/-- A validly signed manifest for the configured suite unstable with an
empty file list. -/
def c8OkChanges : ChangesData :=
  ⟨true, "F", false, ["unstable"], false, "foo", "1.0", Except.ok []⟩

/-- Witness for C8: with the suite configured, the call returns instead of
raising. -/
theorem c8_process_changes_never_raises_for_rejections_witness :
    isRaised (process_changes "master" [c8Uploader] [("unstable", NewPolicy.default)]
      [] [] [] c8EmptyState c8OkChanges) = false :=
  c8_process_changes_never_raises_for_rejections "master" [c8Uploader]
    [("unstable", NewPolicy.default)] [] [] [] c8EmptyState c8OkChanges c8Uploader
    rfl rfl
    (by
      intro d hd
      injection hd with h1 h2
      subst h1
      exact ⟨NewPolicy.default, rfl⟩)

end Laniakea
